import Mathlib

/-! A shallow embedding of the eVatR client `go-evatr`.

The development embeds the request/response mapping and the error taxonomy of the
package `evatr` (files `types.go`, `errors.go`, `client.go`, `validation.go`, `info.go`).

Conventions of the embedding

* Go strings are Lean strings, the text of a valid UTF-8 string; Go `int` is `Int`. The wire
  shape of a request is also given on Go strings as byte sequences (`GoString`), where the
  replacement of invalid bytes by `encoding/json` is visible.
* A message body is modelled by the first JSON value that `encoding/json` reads from it:
  `none` stands for a body from which no value can be read (empty, not JSON, read failure).
* An operation returns its Go results together with `sent`, the list of requests it handed
  to the HTTP client, in order; `sent = []` says that no network call was made.
* A Go pointer result is an `Option` (`none` is `nil`), a Go slice result is an
  `Option (List _)` (`none` is the nil slice).
* Every operation is given a non-nil context and the client holds a non-nil `*http.Client`.
-/

namespace Evatr

/-! ## JSON values and the decoding rules of `encoding/json` -/

/-- A JSON value. A number literal in integer syntax is `int`; any other number literal
(with a fraction or an exponent) is `float` and keeps its spelling. -/
inductive JsonValue where
  | null
  | bool (b : Bool)
  | int (i : Int)
  | float (lit : String)
  | str (s : String)
  | arr (items : List JsonValue)
  | obj (members : List (String × JsonValue))

/-- The body of an HTTP message: the first JSON value readable from it, if any. -/
abbrev Body := Option JsonValue

/-- Error of the package `evatr` (`errors.go`, type `Error`). -/
structure Error where
  StatusCode : Int
  Status : String
  Message : String
  deriving DecidableEq, Repr

/-- Go `error` values, by dynamic type. `errorString` is the result of `fmt.Errorf` without
a wrapping verb, `wrapError msg inner` the result of `fmt.Errorf(msg + "%w", inner)`, `evatr`
is a `*Error`, and `foreign` is an error value produced by a library (`encoding/json`,
`net/http`, `net/url`, `io`). -/
inductive GoError where
  | errorString (msg : String)
  | wrapError (msg : String) (inner : GoError)
  | evatr (e : Error)
  | foreign (msg : String)
  deriving DecidableEq, Repr

/-- Case folding of one rune as `encoding/json` applies it to object keys: ASCII letters go
to upper case, and the two non-ASCII runes whose fold orbit contains an ASCII letter (the long
s U+017F and the Kelvin sign U+212A) go to that letter. Every other rune folds to a non-ASCII
rune and is left as it is here, which gives the same answer whenever the other side of the
comparison is an ASCII field name. -/
def foldRune (c : Char) : Char :=
  if 97 ≤ c.toNat ∧ c.toNat ≤ 122 then Char.ofNat (c.toNat - 32)
  else if c.toNat = 0x17F then 'S'
  else if c.toNat = 0x212A then 'K'
  else c

/-- Folded spelling of a key or field name (`foldName` of `encoding/json`). -/
def foldName (s : String) : List Char := s.toList.map foldRune

/-- One decodable field of a struct: its JSON name and how a JSON value is stored into it.
`store` answers `none` when the value has the wrong JSON type for the field. -/
structure Field (α : Type) where
  name : String
  store : JsonValue → α → Option α

/-- Storing into a `string` field: a JSON string is assigned, `null` leaves the field as it
is, anything else is a type mismatch. -/
def storeString {α : Type} (set : α → String → α) : JsonValue → α → Option α
  | .str s, t => some (set t s)
  | .null, t => some t
  | _, _ => none

/-- Storing into an `int` field (64 bit): an integer literal in range is assigned, `null`
leaves the field as it is, anything else is a type mismatch. -/
def storeInt {α : Type} (set : α → Int → α) : JsonValue → α → Option α
  | .int i, t => if -(2 ^ 63) ≤ i ∧ i < 2 ^ 63 then some (set t i) else none
  | .null, t => some t
  | _, _ => none

/-- Storing into a `bool` field. -/
def storeBool {α : Type} (set : α → Bool → α) : JsonValue → α → Option α
  | .bool b, t => some (set t b)
  | .null, t => some t
  | _, _ => none

/-- The struct field selected by an object key: the field whose folded name equals the folded
key. (The library tries an exact match first; the field names of every struct below have
pairwise distinct foldings, so both steps select the same field.) -/
def findField {α : Type} (fields : List (Field α)) (key : String) : Option (Field α) :=
  fields.find? (fun f => foldName f.name = foldName key)

/-- The error recorded for a JSON value that does not fit its Go target. -/
def unmarshalTypeError (what : String) : GoError :=
  .foreign ("json: cannot unmarshal value into Go value of type " ++ what)

/-- First error wins (`saveError` of `encoding/json`). -/
def saveError (saved : Option GoError) (e : GoError) : Option GoError :=
  match saved with
  | some e0 => some e0
  | none => some e

/-- Decoding of one object member into a struct: a key that selects no field is skipped, a
value of the right type is stored, a value of the wrong type records an error and decoding
goes on with the next member. -/
def decodeMember {α : Type} (fields : List (Field α)) (st : α × Option GoError)
    (kv : String × JsonValue) : α × Option GoError :=
  match findField fields kv.1 with
  | none => st
  | some f =>
    match f.store kv.2 st.1 with
    | some t => (t, st.2)
    | none => (st.1, saveError st.2 (unmarshalTypeError f.name))

/-- Decoding of a JSON value into a struct (`json.Unmarshal` on a struct target): an object
is decoded member by member in order, `null` leaves the target as it is, any other value is a
type mismatch. The target is returned together with the first error. -/
def unmarshalStruct {α : Type} (fields : List (Field α)) (what : String) (v : JsonValue)
    (t : α) : α × Option GoError :=
  match v with
  | .obj members => members.foldl (decodeMember fields) (t, none)
  | .null => (t, none)
  | _ => (t, some (unmarshalTypeError what))

/-- Decoding of one array element into a fresh zero element appended to the slice. -/
def decodeItem {α : Type} (elem : JsonValue → α → α × Option GoError) (zero : α)
    (st : List α × Option GoError) (v : JsonValue) : List α × Option GoError :=
  match elem v zero with
  | (x, none) => (st.1 ++ [x], st.2)
  | (x, some e) => (st.1 ++ [x], saveError st.2 e)

/-- Decoding of a JSON value into a slice: an array is decoded item by item, `null` makes the
slice nil, any other value is a type mismatch and leaves the slice as it is. -/
def unmarshalSlice {α : Type} (elem : JsonValue → α → α × Option GoError) (zero : α)
    (what : String) (v : JsonValue) (t : Option (List α)) : Option (List α) × Option GoError :=
  match v with
  | .arr items =>
    let r := items.foldl (decodeItem elem zero) ([], none)
    (some r.1, r.2)
  | .null => (none, none)
  | _ => (t, some (unmarshalTypeError what))

/-- The call `json.NewDecoder(body).Decode(&target)`: when no JSON value can be read the
target is untouched and an error is returned, otherwise the value is unmarshalled. -/
def jsonDecode {α : Type} (unmarshal : JsonValue → α → α × Option GoError) (body : Body)
    (t : α) : α × Option GoError :=
  match body with
  | none => (t, some (.foreign "json: no value could be read from the body"))
  | some v => unmarshal v t

/-- A struct field tagged `omitempty`: left out of the encoding when the string is empty. -/
def omitEmpty (name : String) (s : String) : List (String × JsonValue) :=
  if s = "" then [] else [(name, .str s)]

/-! ## `types.go` -/

/-- ValidationRequest of `types.go`. -/
structure ValidationRequest where
  RequestingVATID : String
  RequestedVATID : String
  CompanyName : String
  Street : String
  PostalCode : String
  City : String
  deriving DecidableEq, Repr

/-- VerificationResult of `types.go` is a string type. -/
abbrev VerificationResult := String

def VerificationMatch : VerificationResult := "A"
def VerificationMismatch : VerificationResult := "B"
def VerificationNotRequested : VerificationResult := "C"
def VerificationNotProvided : VerificationResult := "D"

/-- ValidationResponse of `types.go`. -/
structure ValidationResponse where
  ID : String
  RequestTimestamp : String
  ValidFrom : String
  ValidUntil : String
  Status : String
  CompanyNameResult : VerificationResult
  StreetResult : VerificationResult
  PostalCodeResult : VerificationResult
  CityResult : VerificationResult
  deriving DecidableEq, Repr

/-- StatusMessage of `types.go`. -/
structure StatusMessage where
  Status : String
  Category : String
  HTTPCode : Int
  Field : String
  Message : String
  deriving DecidableEq, Repr

/-- EUMemberState of `types.go`. -/
structure EUMemberState where
  Alpha2 : String
  Name : String
  Available : Bool
  deriving DecidableEq, Repr

/-- The method `IsValid` of `ValidationResponse`. -/
def ValidationResponse.IsValid (v : ValidationResponse) : Bool :=
  v.Status == "evatr-0000" || v.Status == "evatr-2008"

/-! ## `errors.go` -/

/-- ErrorResponse of `errors.go` (wire shape of an error body). -/
structure ErrorResponse where
  Status : String
  Message : String
  deriving DecidableEq, Repr

def StatusMissingRequiredField : String := "evatr-0002"
def StatusInvalidRequestingVATID : String := "evatr-0004"
def StatusInvalidRequestedVATID : String := "evatr-0005"
def StatusMaxQualifiedRequestsReached : String := "evatr-0008"
def StatusInvalidVATIDFormat : String := "evatr-0012"
def StatusInvalidCountryCode : String := "evatr-2003"
def StatusNotAuthorizedDE : String := "evatr-0006"
def StatusInvalidCall : String := "evatr-0007"
def StatusVATIDNotAssigned : String := "evatr-2001"
def StatusRequestingVATIDNotValid : String := "evatr-2005"
def StatusValid : String := "evatr-0000"
def StatusNotYetValid : String := "evatr-2002"
def StatusNoLongerValid : String := "evatr-2006"
def StatusValidWithSpecialCase : String := "evatr-2008"
def StatusProcessingError1 : String := "evatr-2004"
def StatusProcessingError2 : String := "evatr-2011"
def StatusProcessingError3 : String := "evatr-3011"
def StatusServiceUnavailable1 : String := "evatr-0011"
def StatusServiceUnavailable2 : String := "evatr-1001"
def StatusServiceUnavailable3 : String := "evatr-1002"
def StatusServiceUnavailable4 : String := "evatr-1003"
def StatusServiceUnavailable5 : String := "evatr-1004"

/-- The twenty known status constants of `errors.go` other than `StatusValid` and
`StatusValidWithSpecialCase`, in the order of the source. -/
def otherKnownStatuses : List String :=
  [StatusMissingRequiredField, StatusInvalidRequestingVATID, StatusInvalidRequestedVATID,
   StatusMaxQualifiedRequestsReached, StatusInvalidVATIDFormat, StatusInvalidCountryCode,
   StatusNotAuthorizedDE, StatusInvalidCall,
   StatusVATIDNotAssigned, StatusRequestingVATIDNotValid,
   StatusNotYetValid, StatusNoLongerValid,
   StatusProcessingError1, StatusProcessingError2, StatusProcessingError3,
   StatusServiceUnavailable1, StatusServiceUnavailable2, StatusServiceUnavailable3,
   StatusServiceUnavailable4, StatusServiceUnavailable5]

/-! ## Wire shapes: field tables and encodings -/

/-- The decodable fields of `ErrorResponse` (`status`, `meldung`). -/
def errorResponseFields : List (Field ErrorResponse) :=
  [⟨"status", storeString (fun t s => { t with Status := s })⟩,
   ⟨"meldung", storeString (fun t s => { t with Message := s })⟩]

/-- Unmarshalling into an `ErrorResponse`. -/
def unmarshalErrorResponse : JsonValue → ErrorResponse → ErrorResponse × Option GoError :=
  unmarshalStruct errorResponseFields "evatr.ErrorResponse"

/-- The encoding of an `ErrorResponse` (`json.Marshal`): both fields are always present. -/
def encodeErrorResponse (e : ErrorResponse) : JsonValue :=
  .obj [("status", .str e.Status), ("meldung", .str e.Message)]

/-- The decodable fields of `ValidationResponse`. -/
def validationResponseFields : List (Field ValidationResponse) :=
  [⟨"id", storeString (fun t s => { t with ID := s })⟩,
   ⟨"anfrageZeitpunkt", storeString (fun t s => { t with RequestTimestamp := s })⟩,
   ⟨"gueltigAb", storeString (fun t s => { t with ValidFrom := s })⟩,
   ⟨"gueltigBis", storeString (fun t s => { t with ValidUntil := s })⟩,
   ⟨"status", storeString (fun t s => { t with Status := s })⟩,
   ⟨"ergFirmenname", storeString (fun t s => { t with CompanyNameResult := s })⟩,
   ⟨"ergStrasse", storeString (fun t s => { t with StreetResult := s })⟩,
   ⟨"ergPlz", storeString (fun t s => { t with PostalCodeResult := s })⟩,
   ⟨"ergOrt", storeString (fun t s => { t with CityResult := s })⟩]

/-- Unmarshalling into a `ValidationResponse`. -/
def unmarshalValidationResponse :
    JsonValue → ValidationResponse → ValidationResponse × Option GoError :=
  unmarshalStruct validationResponseFields "evatr.ValidationResponse"

/-- The encoding of a `ValidationResponse`: `anfrageZeitpunkt` and `status` are always
present, the other seven fields are tagged `omitempty`. -/
def encodeValidationResponse (v : ValidationResponse) : JsonValue :=
  .obj (omitEmpty "id" v.ID ++ [("anfrageZeitpunkt", .str v.RequestTimestamp)] ++
    omitEmpty "gueltigAb" v.ValidFrom ++ omitEmpty "gueltigBis" v.ValidUntil ++
    [("status", .str v.Status)] ++
    omitEmpty "ergFirmenname" v.CompanyNameResult ++ omitEmpty "ergStrasse" v.StreetResult ++
    omitEmpty "ergPlz" v.PostalCodeResult ++ omitEmpty "ergOrt" v.CityResult)

/-- The zero value of `ValidationResponse` (`var resp ValidationResponse`). -/
def zeroValidationResponse : ValidationResponse := ⟨"", "", "", "", "", "", "", "", ""⟩

/-- The encoding of a `ValidationRequest` whose fields are given as texts: the two identifiers
are always present, the four company fields are tagged `omitempty`. The encoding of a Go value
with arbitrary bytes is `encodeValidationRequestBytes`, which encodes the texts of the
fields. -/
def encodeValidationRequest (r : ValidationRequest) : JsonValue :=
  .obj ([("anfragendeUstid", .str r.RequestingVATID), ("angefragteUstid", .str r.RequestedVATID)]
    ++ omitEmpty "firmenname" r.CompanyName ++ omitEmpty "strasse" r.Street
    ++ omitEmpty "plz" r.PostalCode ++ omitEmpty "ort" r.City)

/-- The decodable fields of `StatusMessage`. -/
def statusMessageFields : List (Field StatusMessage) :=
  [⟨"status", storeString (fun t s => { t with Status := s })⟩,
   ⟨"kategorie", storeString (fun t s => { t with Category := s })⟩,
   ⟨"httpcode", storeInt (fun t i => { t with HTTPCode := i })⟩,
   ⟨"feld", storeString (fun t s => { t with Field := s })⟩,
   ⟨"meldung", storeString (fun t s => { t with Message := s })⟩]

/-- The zero value of `StatusMessage`. -/
def zeroStatusMessage : StatusMessage := ⟨"", "", 0, "", ""⟩

/-- Unmarshalling into a `[]StatusMessage`. -/
def unmarshalStatusMessages :
    JsonValue → Option (List StatusMessage) → Option (List StatusMessage) × Option GoError :=
  unmarshalSlice (unmarshalStruct statusMessageFields "evatr.StatusMessage") zeroStatusMessage
    "[]evatr.StatusMessage"

/-- The encoding of one `StatusMessage`: only `feld` is tagged `omitempty`. -/
def encodeStatusMessage (m : StatusMessage) : JsonValue :=
  .obj ([("status", .str m.Status), ("kategorie", .str m.Category), ("httpcode", .int m.HTTPCode)]
    ++ omitEmpty "feld" m.Field ++ [("meldung", .str m.Message)])

/-- The decodable fields of `EUMemberState`. -/
def euMemberStateFields : List (Field EUMemberState) :=
  [⟨"alpha2", storeString (fun t s => { t with Alpha2 := s })⟩,
   ⟨"name", storeString (fun t s => { t with Name := s })⟩,
   ⟨"verfuegbar", storeBool (fun t b => { t with Available := b })⟩]

/-- The zero value of `EUMemberState`. -/
def zeroEUMemberState : EUMemberState := ⟨"", "", false⟩

/-- Unmarshalling into a `[]EUMemberState`. -/
def unmarshalEUMemberStates :
    JsonValue → Option (List EUMemberState) → Option (List EUMemberState) × Option GoError :=
  unmarshalSlice (unmarshalStruct euMemberStateFields "evatr.EUMemberState") zeroEUMemberState
    "[]evatr.EUMemberState"

/-- The encoding of one `EUMemberState`. -/
def encodeEUMemberState (m : EUMemberState) : JsonValue :=
  .obj [("alpha2", .str m.Alpha2), ("name", .str m.Name), ("verfuegbar", .bool m.Available)]

/-- The encoding of a slice: the nil slice is `null`, any other slice is an array. -/
def encodeSlice {α : Type} (enc : α → JsonValue) : Option (List α) → JsonValue
  | none => .null
  | some xs => .arr (xs.map enc)

/-! ## The HTTP capability -/

/-- An outgoing HTTP request as the client builds it. -/
structure HttpRequest where
  Method : String
  URL : String
  Header : List (String × String)
  Body : Body

/-- An HTTP response as the client reads it: status code and body. -/
structure HttpResponse where
  StatusCode : Int
  Body : Body

/-- The transport capability (`http.RoundTripper`): a response or a transport failure. -/
abbrev RoundTripper := HttpRequest → Except GoError HttpResponse

/-- The fields of `http.Client` the package uses; `Timeout` is in nanoseconds. -/
structure HTTPClient where
  Transport : RoundTripper
  Timeout : Int

/-- The call `httpClient.Do(req)`: one exchange through the transport of the client. What the
HTTP capability does inside an exchange (connections, TLS, redirects, the timeout clock) is
outside the package and not modelled. -/
def HTTPClient.Do (h : HTTPClient) (req : HttpRequest) : Except GoError HttpResponse :=
  h.Transport req

/-- What the package takes from its Go environment: the build information read by
`debug.ReadBuildInfo` (the version of the main module, when available) and the checks of
`net/url.Parse` that are not modelled below (scheme, escapes, host, port). -/
structure GoRuntime where
  buildInfo : Option String
  urlAccepts : String → Bool

/-- The package variable `version` of `client.go`. -/
def version (rt : GoRuntime) : String :=
  match rt.buildInfo with
  | none => "devel"
  | some v => v

/-- Token characters of an HTTP method (`validMethod` of `net/http`). -/
def isTokenRune (c : Char) : Bool :=
  c.isAlphanum || [33, 35, 36, 37, 38, 39, 42, 43, 45, 46, 94, 95, 96, 124, 126].contains c.toNat

/-- The check `validMethod` of `net/http`: a non-empty string of token characters. -/
def validMethod (method : String) : Bool :=
  !method.toList.isEmpty && method.toList.all isTokenRune

/-- The check `stringContainsCTLByte` of `net/url`: an ASCII control character occurs. -/
def stringContainsCTLByte (s : String) : Bool :=
  s.toList.any (fun c => c.toNat < 32 || c.toNat = 127)

/-- The part of a raw URL in front of its first `#` (`strings.Cut(rawURL, "#")`). -/
def cutFragment (rawURL : String) : String :=
  String.mk (rawURL.toList.takeWhile (fun c => c ≠ '#'))

/-- Whether `net/url.Parse` accepts a raw URL: the part in front of the fragment holds no
control character, and the remaining checks of the library pass. -/
def urlParses (rt : GoRuntime) (rawURL : String) : Bool :=
  !stringContainsCTLByte (cutFragment rawURL) && rt.urlAccepts rawURL

/-- The call `http.NewRequestWithContext(ctx, method, url, body)` with a non-nil context: an
empty method means GET, an invalid method or a URL that does not parse is an error. -/
def newRequestWithContext (rt : GoRuntime) (method url : String) (body : Body) :
    Except GoError HttpRequest :=
  let m := if method = "" then "GET" else method
  if !validMethod m then .error (.foreign "net/http: invalid method")
  else if !urlParses rt url then .error (.foreign "parse: invalid URL")
  else .ok ⟨m, url, [], body⟩

/-- The call `req.Header.Set(key, value)`. -/
def HttpRequest.setHeader (r : HttpRequest) (key value : String) : HttpRequest :=
  { r with Header := r.Header.filter (fun kv => kv.1 ≠ key) ++ [(key, value)] }

/-! ## `client.go` -/

def DefaultBaseURL : String := "https://api.evatr.vies.bzst.de/app"

/-- DefaultTimeout of `client.go`: `30 * time.Second`, in nanoseconds. -/
def DefaultTimeout : Int := 30 * 1000000000

/-- Client of `client.go`. -/
structure Client where
  baseURL : String
  httpClient : HTTPClient

/-- What a call gives back: its Go result value, its Go error (`none` is the nil error) and
the requests it handed to the HTTP client, in order. -/
structure Call (α : Type) where
  value : α
  err : Option GoError
  sent : List HttpRequest

/-- The function `getDefaultErrorMessage` of `client.go`. -/
def getDefaultErrorMessage (statusCode : Int) (status : String) : String :=
  if statusCode = 400 then "Bad request: Invalid input parameters"
  else if statusCode = 403 then "Forbidden: Not authorized to perform this request"
  else if statusCode = 404 then "Not found: VAT ID not found or requesting VAT ID invalid"
  else if statusCode = 500 then "Internal server error: Processing temporarily not possible"
  else if statusCode = 503 then "Service unavailable: Please try again later"
  else "Unexpected error (HTTP " ++ toString statusCode ++ "): " ++ status

/-- The method `handleErrorResponse` of `client.go`: the `*Error` it returns. The status and
the message of the body are taken over only when decoding reports no error. -/
def handleErrorResponse (statusCode : Int) (body : Body) : Error :=
  let dec := jsonDecode unmarshalErrorResponse body ⟨"", ""⟩
  let status := match dec.2 with
    | none => dec.1.Status
    | some _ => ""
  let message := match dec.2 with
    | none => dec.1.Message
    | some _ => ""
  let message := if message = "" then getDefaultErrorMessage statusCode status else message
  ⟨statusCode, status, message⟩

/-- The encoding step of `doRequest` (`json.NewEncoder(&buf).Encode(body)`); it cannot fail
for a struct of string fields. -/
def jsonEncode (body : ValidationRequest) : Except GoError JsonValue :=
  .ok (encodeValidationRequest body)

/-- Lines 78 to 96 of `doRequest`: the request handed to the HTTP client, or the error with
which `doRequest` returns before any exchange. A body is only ever a `*ValidationRequest`. -/
def buildRequest (rt : GoRuntime) (c : Client) (method path : String)
    (body : Option ValidationRequest) : Except GoError HttpRequest :=
  let encoded : Except GoError Body :=
    match body with
    | none => .ok none
    | some b =>
      match jsonEncode b with
      | .error e => .error (.wrapError "failed to encode request body: " e)
      | .ok j => .ok (some j)
  match encoded with
  | .error e => .error e
  | .ok reqBody =>
    match newRequestWithContext rt method (c.baseURL ++ path) reqBody with
    | .error e => .error (.wrapError "failed to create request: " e)
    | .ok req =>
      let req := if body.isSome then req.setHeader "Content-Type" "application/json" else req
      let req := req.setHeader "User-Agent"
        ("go-evatr/" ++ version rt ++ " (+https://github.com/hostwithquantum/go-evatr)")
      .ok (req.setHeader "Accept" "application/json")

/-- The method `doRequest` of `client.go`. `result` is the decoding target (`none` when the
caller passes nil); the value of the call is the target after the call. -/
def doRequest {α : Type} (rt : GoRuntime) (c : Client) (method path : String)
    (body : Option ValidationRequest) (unmarshal : JsonValue → α → α × Option GoError)
    (result : Option α) : Call (Option α) :=
  match buildRequest rt c method path body with
  | .error e => ⟨result, some e, []⟩
  | .ok req =>
    match c.httpClient.Do req with
    | .error e => ⟨result, some (.wrapError "failed to execute request: " e), [req]⟩
    | .ok resp =>
      if 200 ≤ resp.StatusCode ∧ resp.StatusCode < 300 then
        match result with
        | none => ⟨none, none, [req]⟩
        | some t =>
          match jsonDecode unmarshal resp.Body t with
          | (t1, some e) => ⟨some t1, some (.wrapError "failed to decode response: " e), [req]⟩
          | (t1, none) => ⟨some t1, none, [req]⟩
      else ⟨result, some (.evatr (handleErrorResponse resp.StatusCode resp.Body)), [req]⟩

/-! ## `validation.go` and `info.go` -/

/-- The call `strings.HasPrefix(s, p)`. -/
def stringsHasPrefix (s p : String) : Bool := p.toList.isPrefixOf s.toList

/-- The tail shared by the three validation operations: the exchange with `/v1/abfrage`
decoding into a fresh `ValidationResponse`, and `nil, err` or `&resp, nil`. -/
def postAbfrage (rt : GoRuntime) (c : Client) (req : ValidationRequest) :
    Call (Option ValidationResponse) :=
  let r := doRequest rt c "POST" "/v1/abfrage" (some req) unmarshalValidationResponse
    (some zeroValidationResponse)
  match r.err with
  | some e => ⟨none, some e, r.sent⟩
  | none => ⟨some (r.value.getD zeroValidationResponse), none, r.sent⟩

/-- The method `ValidateVAT` of `validation.go`. -/
def ValidateVAT (rt : GoRuntime) (c : Client) (requestingVATID requestedVATID : String) :
    Call (Option ValidationResponse) :=
  if requestingVATID = "" then
    ⟨none, some (.errorString "requesting VAT ID is required"), []⟩
  else if !stringsHasPrefix requestingVATID "DE" then
    ⟨none, some (.errorString "requesting VAT ID must be German"), []⟩
  else if requestedVATID = "" then
    ⟨none, some (.errorString "requested VAT ID is required"), []⟩
  else
    postAbfrage rt c
      { RequestingVATID := requestingVATID, RequestedVATID := requestedVATID,
        CompanyName := "", Street := "", PostalCode := "", City := "" }

/-- The method `ValidateVATQualified` of `validation.go`. -/
def ValidateVATQualified (rt : GoRuntime) (c : Client)
    (requestingVATID requestedVATID companyName city street postalCode : String) :
    Call (Option ValidationResponse) :=
  if requestingVATID = "" then
    ⟨none, some (.errorString "requesting VAT ID is required"), []⟩
  else if requestedVATID = "" then
    ⟨none, some (.errorString "requested VAT ID is required"), []⟩
  else if companyName = "" then
    ⟨none, some (.errorString "company name is required for qualified validation"), []⟩
  else if city = "" then
    ⟨none, some (.errorString "city is required for qualified validation"), []⟩
  else
    postAbfrage rt c
      { RequestingVATID := requestingVATID, RequestedVATID := requestedVATID,
        CompanyName := companyName, City := city, Street := street, PostalCode := postalCode }

/-- The method `ValidateVATWithRequest` of `validation.go`; `none` is the nil request. -/
def ValidateVATWithRequest (rt : GoRuntime) (c : Client) (req : Option ValidationRequest) :
    Call (Option ValidationResponse) :=
  match req with
  | none => ⟨none, some (.errorString "request is required"), []⟩
  | some r =>
    if r.RequestingVATID = "" then
      ⟨none, some (.errorString "requesting VAT ID is required"), []⟩
    else if r.RequestedVATID = "" then
      ⟨none, some (.errorString "requested VAT ID is required"), []⟩
    else postAbfrage rt c r

/-- The method `GetStatusMessages` of `info.go`. -/
def GetStatusMessages (rt : GoRuntime) (c : Client) : Call (Option (List StatusMessage)) :=
  let r := doRequest rt c "GET" "/v1/info/statusmeldungen" none unmarshalStatusMessages
    (some none)
  match r.err with
  | some e => ⟨none, some e, r.sent⟩
  | none => ⟨r.value.getD none, none, r.sent⟩

/-- The method `GetEUMemberStates` of `info.go`. -/
def GetEUMemberStates (rt : GoRuntime) (c : Client) : Call (Option (List EUMemberState)) :=
  let r := doRequest rt c "GET" "/v1/info/eu_mitgliedstaaten" none unmarshalEUMemberStates
    (some none)
  match r.err with
  | some e => ⟨none, some e, r.sent⟩
  | none => ⟨r.value.getD none, none, r.sent⟩

/-! ## Notions used to state the properties -/

/-- Whether an object key selects the struct field with the JSON name `name`. -/
def keySelects (name key : String) : Bool := foldName name = foldName key

/-- The value of the last member of an object whose key selects the field `name`: the member
that determines the field after decoding. -/
def lastMember (name : String) : List (String × JsonValue) → Option JsonValue
  | [] => none
  | kv :: rest =>
    match lastMember name rest with
    | some v => some v
    | none => if keySelects name kv.1 then some kv.2 else none

/-- A string value, or the given default when the member is absent or not a string. -/
def strOr (v : Option JsonValue) (d : String) : String :=
  match v with
  | some (.str s) => s
  | _ => d

/-- The outcome of decoding an error body into a fresh `ErrorResponse`. -/
def decodedErrorResponse (body : Body) : ErrorResponse × Option GoError :=
  jsonDecode unmarshalErrorResponse body ⟨"", ""⟩

/-- A call fails locally: it returns an error and has made no network call. -/
def Call.failsLocally {α : Type} (r : Call α) : Prop := r.err ≠ none ∧ r.sent = []

/-- A runtime without build information whose URL parser accepts every URL that holds no
control character; used for concrete runs. -/
def sampleRuntime : GoRuntime := ⟨none, fun _ => true⟩

/-- A client with the default base URL whose transport answers every request with the given
status code and body. -/
def serving (code : Int) (body : Body) : Client :=
  ⟨DefaultBaseURL, ⟨fun _ => .ok ⟨code, body⟩, DefaultTimeout⟩⟩

/-- The request that a client with the default base URL hands to its HTTP client for a
validation, under `sampleRuntime`. -/
def sampleAbfrage (r : ValidationRequest) : HttpRequest :=
  ⟨"POST", "https://api.evatr.vies.bzst.de/app/v1/abfrage",
    [("Content-Type", "application/json"),
     ("User-Agent", "go-evatr/devel (+https://github.com/hostwithquantum/go-evatr)"),
     ("Accept", "application/json")],
    some (encodeValidationRequest r)⟩

/-- The request that a client with the default base URL hands to its HTTP client for a
listing, under `sampleRuntime`. -/
def sampleInfo (path : String) : HttpRequest :=
  ⟨"GET", "https://api.evatr.vies.bzst.de/app" ++ path,
    [("User-Agent", "go-evatr/devel (+https://github.com/hostwithquantum/go-evatr)"),
     ("Accept", "application/json")],
    none⟩

/-! ## Error test, timestamps and the request wire shape -/

/-- The function `IsEvatrErr` of `errors.go`: false for the nil error, and otherwise the type
assertion `err.(*Error)`, which holds exactly for an error whose dynamic type is `*Error`. -/
def IsEvatrErr (err : Option GoError) : Bool :=
  match err with
  | none => false
  | some (.evatr _) => true
  | some _ => false

/-- A `time.Time` instant: seconds and nanoseconds counted from the zero instant. -/
structure Time where
  sec : Int
  nsec : Int
  deriving DecidableEq, Repr

/-- The zero value `time.Time{}`. -/
def Time.zero : Time := ⟨0, 0⟩

/-- The method `IsZero` of `time.Time`. -/
def Time.IsZero (t : Time) : Bool := t.sec == 0 && t.nsec == 0

/-- What a timestamp accessor gives back: the instant, the error, and the strings it handed
to the parser, in order. -/
structure TimeCall where
  value : Time
  err : Option GoError
  parsed : List String

/-- The call `time.Parse(time.RFC3339, s)`. The parser of the library is a parameter; on an
error the library returns the zero instant together with the error. -/
def timeParse (parseRFC3339 : String → Except GoError Time) (s : String) : TimeCall :=
  match parseRFC3339 s with
  | .ok t => ⟨t, none, [s]⟩
  | .error e => ⟨Time.zero, some e, [s]⟩

/-- The method `GetRequestTimestamp` of `types.go`. -/
def ValidationResponse.GetRequestTimestamp (parseRFC3339 : String → Except GoError Time)
    (v : ValidationResponse) : TimeCall :=
  timeParse parseRFC3339 v.RequestTimestamp

/-- The method `GetValidFrom` of `types.go`. -/
def ValidationResponse.GetValidFrom (parseRFC3339 : String → Except GoError Time)
    (v : ValidationResponse) : TimeCall :=
  if v.ValidFrom = "" then ⟨Time.zero, none, []⟩
  else timeParse parseRFC3339 v.ValidFrom

/-- The method `GetValidUntil` of `types.go`. -/
def ValidationResponse.GetValidUntil (parseRFC3339 : String → Except GoError Time)
    (v : ValidationResponse) : TimeCall :=
  if v.ValidUntil = "" then ⟨Time.zero, none, []⟩
  else timeParse parseRFC3339 v.ValidUntil

/-- The decodable fields of `ValidationRequest`. -/
def validationRequestFields : List (Field ValidationRequest) :=
  [⟨"anfragendeUstid", storeString (fun t s => { t with RequestingVATID := s })⟩,
   ⟨"angefragteUstid", storeString (fun t s => { t with RequestedVATID := s })⟩,
   ⟨"firmenname", storeString (fun t s => { t with CompanyName := s })⟩,
   ⟨"strasse", storeString (fun t s => { t with Street := s })⟩,
   ⟨"plz", storeString (fun t s => { t with PostalCode := s })⟩,
   ⟨"ort", storeString (fun t s => { t with City := s })⟩]

/-- Unmarshalling into a `ValidationRequest`, as the receiving side of the wire does. -/
def unmarshalValidationRequest :
    JsonValue → ValidationRequest → ValidationRequest × Option GoError :=
  unmarshalStruct validationRequestFields "evatr.ValidationRequest"

/-- The zero value of `ValidationRequest`. -/
def zeroValidationRequest : ValidationRequest := ⟨"", "", "", "", "", ""⟩

/-- A parser for concrete runs that accepts nothing. -/
def rejectingParser : String → Except GoError Time :=
  fun _ => .error (.foreign "parsing time: cannot parse")

/-! ## The public operations taken together -/

/-- The public operations of the client, each with its arguments. -/
inductive Operation where
  | validateVAT (requestingVATID requestedVATID : String)
  | validateVATQualified
      (requestingVATID requestedVATID companyName city street postalCode : String)
  | validateVATWithRequest (req : Option ValidationRequest)
  | getStatusMessages
  | getEUMemberStates

/-- A call without its result value: the error and the requests handed to the HTTP client. -/
def Call.outcome {α : Type} (r : Call α) : Call Unit := ⟨(), r.err, r.sent⟩

/-- Error and requests of a public operation run on a client. -/
def Operation.run (rt : GoRuntime) (c : Client) : Operation → Call Unit
  | .validateVAT a b => (ValidateVAT rt c a b).outcome
  | .validateVATQualified a b n ci st pc => (ValidateVATQualified rt c a b n ci st pc).outcome
  | .validateVATWithRequest r => (ValidateVATWithRequest rt c r).outcome
  | .getStatusMessages => (GetStatusMessages rt c).outcome
  | .getEUMemberStates => (GetEUMemberStates rt c).outcome

/-- The exchange an operation asks for when its input checks pass (method, path, body), or
the error with which an input check rejects the arguments. -/
def Operation.plan : Operation → Except GoError (String × String × Option ValidationRequest)
  | .validateVAT a b =>
    if a = "" then .error (.errorString "requesting VAT ID is required")
    else if stringsHasPrefix a "DE" = false then
      .error (.errorString "requesting VAT ID must be German")
    else if b = "" then .error (.errorString "requested VAT ID is required")
    else .ok ("POST", "/v1/abfrage", some ⟨a, b, "", "", "", ""⟩)
  | .validateVATQualified a b n ci st pc =>
    if a = "" then .error (.errorString "requesting VAT ID is required")
    else if b = "" then .error (.errorString "requested VAT ID is required")
    else if n = "" then
      .error (.errorString "company name is required for qualified validation")
    else if ci = "" then .error (.errorString "city is required for qualified validation")
    else .ok ("POST", "/v1/abfrage", some ⟨a, b, n, st, pc, ci⟩)
  | .validateVATWithRequest none => .error (.errorString "request is required")
  | .validateVATWithRequest (some r) =>
    if r.RequestingVATID = "" then .error (.errorString "requesting VAT ID is required")
    else if r.RequestedVATID = "" then .error (.errorString "requested VAT ID is required")
    else .ok ("POST", "/v1/abfrage", some r)
  | .getStatusMessages => .ok ("GET", "/v1/info/statusmeldungen", none)
  | .getEUMemberStates => .ok ("GET", "/v1/info/eu_mitgliedstaaten", none)

/-- The error, if any, of decoding a response body into the fresh result target of an
operation. -/
def Operation.decodeError : Operation → Body → Option GoError
  | .getStatusMessages, body => (jsonDecode unmarshalStatusMessages body none).2
  | .getEUMemberStates, body => (jsonDecode unmarshalEUMemberStates body none).2
  | _, body => (jsonDecode unmarshalValidationResponse body zeroValidationResponse).2

/-- Error and requests of one exchange, by cases on what happens: the request cannot be
built, the transport fails, the response is 2xx and decodes or not, the response is not
2xx. -/
def exchangeOutcome (rt : GoRuntime) (c : Client) (method path : String)
    (body : Option ValidationRequest) (decodeError : Body → Option GoError) : Call Unit :=
  match buildRequest rt c method path body with
  | .error e => ⟨(), some e, []⟩
  | .ok req =>
    match c.httpClient.Do req with
    | .error e => ⟨(), some (.wrapError "failed to execute request: " e), [req]⟩
    | .ok resp =>
      if 200 ≤ resp.StatusCode ∧ resp.StatusCode < 300 then
        match decodeError resp.Body with
        | some e => ⟨(), some (.wrapError "failed to decode response: " e), [req]⟩
        | none => ⟨(), none, [req]⟩
      else ⟨(), some (.evatr (handleErrorResponse resp.StatusCode resp.Body)), [req]⟩

/-- Error and requests of an operation, by cases on what happens. -/
def Operation.expected (rt : GoRuntime) (c : Client) (op : Operation) : Call Unit :=
  match op.plan with
  | .error e => ⟨(), some e, []⟩
  | .ok (method, path, body) => exchangeOutcome rt c method path body op.decodeError

/-- A client with the default base URL whose transport fails every request with the given
error value. -/
def refusing (e : GoError) : Client :=
  ⟨DefaultBaseURL, ⟨fun _ => .error e, DefaultTimeout⟩⟩

/-! ## Construction of a client: `NewClient` and the options of `client.go`

The field `httpClient` of `Client` is a pointer, and `WithTimeout` writes through it. During
construction the `http.Client` objects therefore live in a store and are named by address. -/

/-- The `http.Client` objects that exist, by address (the position in the list). -/
abbrev Store := List HTTPClient

/-- The struct `Client` with its pointer field: `none` is the nil pointer. -/
structure ClientRef where
  baseURL : String
  httpClient : Option Nat

/-- The function type `Option` of `client.go`: an option acts on the client under construction
and may write to the store; `none` is a run-time panic (nil pointer dereference). -/
abbrev ClientOption := ClientRef × Store → Option (ClientRef × Store)

/-- The option `WithBaseURL`. -/
def WithBaseURL (baseURL : String) : ClientOption :=
  fun st => some ({ st.1 with baseURL := baseURL }, st.2)

/-- The option `WithHTTPClient`; the argument is a pointer to an `http.Client`. -/
def WithHTTPClient (httpClient : Option Nat) : ClientOption :=
  fun st => some ({ st.1 with httpClient := httpClient }, st.2)

/-- The option `WithTimeout`: it assigns to the field `Timeout` of the `http.Client` that the
client points to at the moment the option is applied. -/
def WithTimeout (timeout : Int) : ClientOption :=
  fun st =>
    match st.1.httpClient with
    | none => none
    | some p =>
      match st.2[p]? with
      | none => none
      | some h => some (st.1, st.2.set p { h with Timeout := timeout })

/-- The function `NewClient`: a fresh `http.Client` with the default timeout is allocated
(its nil transport stands for `http.DefaultTransport`, given here as `net`), and the options
are applied in order. -/
def NewClient (net : RoundTripper) (store : Store) (opts : List ClientOption) :
    Option (ClientRef × Store) :=
  opts.foldl (fun st opt => st.bind opt)
    (some (⟨DefaultBaseURL, some store.length⟩, store ++ [⟨net, DefaultTimeout⟩]))

/-- The client as the operations use it: the base URL and the `http.Client` object that the
pointer refers to. -/
def ClientRef.deref (c : ClientRef) (store : Store) : Option Client :=
  match c.httpClient with
  | none => none
  | some p => (store[p]?).map (fun h => ⟨c.baseURL, h⟩)

/-- The client that `NewClient` returns, as the operations use it. -/
def builtClient (net : RoundTripper) (store : Store) (opts : List ClientOption) :
    Option Client :=
  (NewClient net store opts).bind (fun st => st.1.deref st.2)

/-! ## The debug transport of `client_debug.go` -/

/-- A response body as a stream: the bytes it delivers, and then the end of the stream
(`none`) or a read error. A read error is returned again by every later read, as the bodies of
`net/http` do. -/
structure Stream where
  data : List Nat
  fault : Option GoError

/-- A response as a transport delivers it. -/
structure RawResponse where
  StatusCode : Int
  Body : Stream

/-- A transport at the level of body streams. -/
abbrev RawRoundTripper := HttpRequest → Except GoError RawResponse

/-- The call `io.ReadAll(body)`. -/
def ioReadAll (s : Stream) : Except GoError (List Nat) :=
  match s.fault with
  | none => .ok s.data
  | some e => .error e

/-- The body `io.NopCloser(bytes.NewBuffer(b))`. -/
def bytesNewBuffer (b : List Nat) : Stream := ⟨b, none⟩

/-- The dump functions of `net/http/httputil`, whose text only goes to the log. After
`DumpResponse` the body of the response delivers what it delivered before. -/
structure Httputil where
  DumpRequestOut : HttpRequest → Except GoError String
  DumpResponse : RawResponse → Except GoError String

/-- What the debug transport prints. -/
inductive Printed where
  | requestDumpError (e : GoError)
  | request (dump : String)
  | transportError (e : GoError)
  | responseDumpError (e : GoError)
  | response (dump : String)

/-- Result and output of one round trip through the debug transport. -/
structure DebugCall where
  result : Except GoError RawResponse
  printed : List Printed

/-- The method `RoundTrip` of `debugTransport`. -/
def debugTransport.RoundTrip (util : Httputil) (transport : RawRoundTripper)
    (req : HttpRequest) : DebugCall :=
  let p1 : List Printed :=
    match util.DumpRequestOut req with
    | .error e => [.requestDumpError e]
    | .ok d => [.request d]
  match transport req with
  | .error e => ⟨.error e, p1 ++ [.transportError e]⟩
  | .ok resp =>
    let p2 : List Printed :=
      match util.DumpResponse resp with
      | .error e => [.responseDumpError e]
      | .ok d => [.response d]
    match ioReadAll resp.Body with
    | .error e => ⟨.error e, p1 ++ p2⟩
    | .ok bodyBytes => ⟨.ok { resp with Body := bytesNewBuffer bodyBytes }, p1 ++ p2⟩

/-- The function `NewDebugTransport`: a nil transport is replaced by `http.DefaultTransport`,
given here as `net`. The result is the round trip of the wrapper. -/
def NewDebugTransport (util : Httputil) (net : RawRoundTripper)
    (transport : Option RawRoundTripper) : RawRoundTripper :=
  fun req => (debugTransport.RoundTrip util (transport.getD net) req).result

/-- A stream-level transport as the client sees it: of a delivered response the client reads
the status code and the first JSON value of the body; `firstValue` is the reading of
`encoding/json` from a stream. -/
def delivered (firstValue : Stream → Body) (t : RawRoundTripper) : RoundTripper :=
  fun req =>
    match t req with
    | .error e => .error e
    | .ok r => .ok ⟨r.StatusCode, firstValue r.Body⟩

/-- Dump functions for concrete runs. -/
def sampleHttputil : Httputil := ⟨fun _ => .ok "request", fun _ => .ok "response"⟩

/-! ## The error constructors of `errors.go` -/

/-- The constructor `NewBadRequestError`. -/
def NewBadRequestError (status message : String) : Error := ⟨400, status, message⟩

/-- The constructor `NewForbiddenError`. -/
def NewForbiddenError (status message : String) : Error := ⟨403, status, message⟩

/-- The constructor `NewNotFoundError`. -/
def NewNotFoundError (status message : String) : Error := ⟨404, status, message⟩

/-- The constructor `NewInternalServerError`. -/
def NewInternalServerError (status message : String) : Error := ⟨500, status, message⟩

/-- The constructor `NewServiceUnavailableError`. -/
def NewServiceUnavailableError (status message : String) : Error := ⟨503, status, message⟩

/-! ## Go strings as byte sequences, and the request on the wire byte by byte -/

/-- A Go string as Go holds it: a sequence of bytes (numbers below 256). It need not be valid
UTF-8. -/
abbrev GoString := List Nat

/-- The rune `utf8.RuneError`, U+FFFD. -/
def runeError : Char := Char.ofNat 0xFFFD

/-- The function `utf8.DecodeRuneInString`: the first rune of a byte sequence and its width in
bytes. A byte that does not start a well-formed sequence (a stray continuation byte, an
overlong or surrogate encoding, a sequence that is cut short) gives `RuneError` with width
1. -/
def decodeRune : GoString → Char × Nat
  | [] => (runeError, 0)
  | b0 :: rest =>
    if b0 < 0x80 then (Char.ofNat b0, 1)
    else if 0xC2 ≤ b0 ∧ b0 ≤ 0xDF then
      match rest with
      | b1 :: _ =>
        if 0x80 ≤ b1 ∧ b1 ≤ 0xBF then (Char.ofNat ((b0 - 0xC0) * 64 + (b1 - 0x80)), 2)
        else (runeError, 1)
      | _ => (runeError, 1)
    else if 0xE0 ≤ b0 ∧ b0 ≤ 0xEF then
      match rest with
      | b1 :: b2 :: _ =>
        if (if b0 = 0xE0 then 0xA0 else 0x80) ≤ b1 ∧ b1 ≤ (if b0 = 0xED then 0x9F else 0xBF) ∧
            0x80 ≤ b2 ∧ b2 ≤ 0xBF then
          (Char.ofNat ((b0 - 0xE0) * 4096 + (b1 - 0x80) * 64 + (b2 - 0x80)), 3)
        else (runeError, 1)
      | _ => (runeError, 1)
    else if 0xF0 ≤ b0 ∧ b0 ≤ 0xF4 then
      match rest with
      | b1 :: b2 :: b3 :: _ =>
        if (if b0 = 0xF0 then 0x90 else 0x80) ≤ b1 ∧ b1 ≤ (if b0 = 0xF4 then 0x8F else 0xBF) ∧
            0x80 ≤ b2 ∧ b2 ≤ 0xBF ∧ 0x80 ≤ b3 ∧ b3 ≤ 0xBF then
          (Char.ofNat ((b0 - 0xF0) * 262144 + (b1 - 0x80) * 4096 + (b2 - 0x80) * 64
            + (b3 - 0x80)), 4)
        else (runeError, 1)
      | _ => (runeError, 1)
    else (runeError, 1)

/-- The runes that the encoder of `encoding/json` reads from a Go string, rune by rune with
`utf8.DecodeRuneInString`; the first argument bounds the number of runes. -/
def decodeRunes : Nat → GoString → List Char
  | 0, _ => []
  | _ + 1, [] => []
  | fuel + 1, b :: rest =>
    (decodeRune (b :: rest)).1 ::
      decodeRunes fuel ((b :: rest).drop (decodeRune (b :: rest)).2)

/-- The text of the JSON string that `encoding/json` writes for a Go string: the string
coerced to valid UTF-8, every invalid byte replaced by U+FFFD. -/
def jsonText (s : GoString) : String := String.mk (decodeRunes s.length s)

/-- The UTF-8 encoding of one rune (`utf8.AppendRune`). -/
def encodeRune (c : Char) : GoString :=
  if c.toNat < 0x80 then [c.toNat]
  else if c.toNat < 0x800 then [0xC0 + c.toNat / 64, 0x80 + c.toNat % 64]
  else if c.toNat < 0x10000 then
    [0xE0 + c.toNat / 4096, 0x80 + c.toNat / 64 % 64, 0x80 + c.toNat % 64]
  else
    [0xF0 + c.toNat / 262144, 0x80 + c.toNat / 4096 % 64, 0x80 + c.toNat / 64 % 64,
      0x80 + c.toNat % 64]

/-- The Go string that decoding a JSON string stores: the UTF-8 bytes of its text. -/
def utf8Bytes (s : String) : GoString := s.toList.flatMap encodeRune

/-- A Go string is valid UTF-8 when it is the UTF-8 encoding of a text. -/
def ValidUTF8 (s : GoString) : Prop := ∃ t : String, s = utf8Bytes t

/-- ValidationRequest of `types.go` as a Go value: its six string fields are byte
sequences. -/
structure ValidationRequestBytes where
  RequestingVATID : GoString
  RequestedVATID : GoString
  CompanyName : GoString
  Street : GoString
  PostalCode : GoString
  City : GoString
  deriving DecidableEq, Repr

/-- A Go string field tagged `omitempty`: left out of the encoding when it has no bytes. -/
def omitEmptyBytes (name : String) (s : GoString) : List (String × JsonValue) :=
  if s = [] then [] else [(name, .str (jsonText s))]

/-- The encoding of a `ValidationRequest` given as a Go value (`json.Marshal`). -/
def encodeValidationRequestBytes (r : ValidationRequestBytes) : JsonValue :=
  .obj ([("anfragendeUstid", .str (jsonText r.RequestingVATID)),
         ("angefragteUstid", .str (jsonText r.RequestedVATID))]
    ++ omitEmptyBytes "firmenname" r.CompanyName ++ omitEmptyBytes "strasse" r.Street
    ++ omitEmptyBytes "plz" r.PostalCode ++ omitEmptyBytes "ort" r.City)

/-- The decodable fields of `ValidationRequest` as a Go value: the text of a JSON string is
stored as its UTF-8 bytes. -/
def validationRequestBytesFields : List (Field ValidationRequestBytes) :=
  [⟨"anfragendeUstid", storeString (fun t s => { t with RequestingVATID := utf8Bytes s })⟩,
   ⟨"angefragteUstid", storeString (fun t s => { t with RequestedVATID := utf8Bytes s })⟩,
   ⟨"firmenname", storeString (fun t s => { t with CompanyName := utf8Bytes s })⟩,
   ⟨"strasse", storeString (fun t s => { t with Street := utf8Bytes s })⟩,
   ⟨"plz", storeString (fun t s => { t with PostalCode := utf8Bytes s })⟩,
   ⟨"ort", storeString (fun t s => { t with City := utf8Bytes s })⟩]

/-- Unmarshalling into a `ValidationRequest` given as a Go value. -/
def unmarshalValidationRequestBytes :
    JsonValue → ValidationRequestBytes → ValidationRequestBytes × Option GoError :=
  unmarshalStruct validationRequestBytesFields "evatr.ValidationRequest"

/-- The zero value of `ValidationRequest` as a Go value. -/
def zeroValidationRequestBytes : ValidationRequestBytes := ⟨[], [], [], [], [], []⟩

/-- The texts of the fields of a request, as the encoder reads them. -/
def ValidationRequestBytes.text (r : ValidationRequestBytes) : ValidationRequest :=
  ⟨jsonText r.RequestingVATID, jsonText r.RequestedVATID, jsonText r.CompanyName,
    jsonText r.Street, jsonText r.PostalCode, jsonText r.City⟩

/-! ## Status taxonomy: validity (C1) -/

/-- Claim C1. A response is valid exactly when its status is `StatusValid` ("evatr-0000") or
`StatusValidWithSpecialCase` ("evatr-2008"); it is invalid for each of the twenty other known
status constants, whatever the other fields of the response hold. -/
theorem isValid_iff_valid_status (r : ValidationResponse) :
    (r.IsValid = true ↔ (r.Status = StatusValid ∨ r.Status = StatusValidWithSpecialCase)) ∧
    StatusValid = "evatr-0000" ∧ StatusValidWithSpecialCase = "evatr-2008" ∧
    otherKnownStatuses.length = 20 ∧
    otherKnownStatuses.all (fun s => !({ r with Status := s } : ValidationResponse).IsValid)
      = true := by
  refine ⟨?_, rfl, rfl, rfl, ?_⟩
  · simp [ValidationResponse.IsValid, StatusValid, StatusValidWithSpecialCase]
  · simp only [otherKnownStatuses, ValidationResponse.IsValid]
    decide

/-! ## The error classifier (C2, C3, C4) -/

theorem handleErrorResponse_decoded (code : Int) (body : Body)
    (h : (decodedErrorResponse body).2 = none) :
    handleErrorResponse code body =
      ⟨code, (decodedErrorResponse body).1.Status,
        if (decodedErrorResponse body).1.Message = "" then
          getDefaultErrorMessage code (decodedErrorResponse body).1.Status
        else (decodedErrorResponse body).1.Message⟩ := by
  unfold decodedErrorResponse at h ⊢
  simp only [handleErrorResponse, h]

theorem handleErrorResponse_failed (code : Int) (body : Body)
    (h : (decodedErrorResponse body).2 ≠ none) :
    handleErrorResponse code body = ⟨code, "", getDefaultErrorMessage code ""⟩ := by
  unfold decodedErrorResponse at h
  cases hd : (jsonDecode unmarshalErrorResponse body ⟨"", ""⟩).2 with
  | none => exact absurd hd h
  | some e => simp only [handleErrorResponse, hd, if_true]

theorem keySelects_status_meldung (k : String) :
    ¬ (keySelects "status" k = true ∧ keySelects "meldung" k = true) := by
  rintro ⟨h1, h2⟩
  simp only [keySelects, decide_eq_true_eq] at h1 h2
  have h3 : foldName "status" = foldName "meldung" := h1.trans h2.symm
  revert h3
  decide

theorem decodeMember_status (t : ErrorResponse) (e : Option GoError) (k x : String)
    (h : keySelects "status" k = true) :
    decodeMember errorResponseFields (t, e) (k, .str x) = ({ t with Status := x }, e) := by
  simp only [keySelects, decide_eq_true_eq] at h
  simp [decodeMember, findField, errorResponseFields, List.find?, h, storeString]

theorem decodeMember_meldung (t : ErrorResponse) (e : Option GoError) (k x : String)
    (h : keySelects "meldung" k = true) :
    decodeMember errorResponseFields (t, e) (k, .str x) = ({ t with Message := x }, e) := by
  have h1 : ¬ foldName "status" = foldName k := by
    intro h1
    exact keySelects_status_meldung k ⟨by simp [keySelects, h1], h⟩
  simp only [keySelects, decide_eq_true_eq] at h
  simp [decodeMember, findField, errorResponseFields, List.find?, h, h1, storeString]

theorem decodeMember_skipped (t : ErrorResponse) (e : Option GoError) (kv : String × JsonValue)
    (h1 : ¬ keySelects "status" kv.1 = true) (h2 : ¬ keySelects "meldung" kv.1 = true) :
    decodeMember errorResponseFields (t, e) kv = (t, e) := by
  simp only [keySelects, decide_eq_true_eq] at h1 h2
  simp [decodeMember, findField, errorResponseFields, List.find?, h1, h2]

theorem lastMember_mem (name : String) (ms : List (String × JsonValue)) (v : JsonValue)
    (h : lastMember name ms = some v) :
    ∃ kv ∈ ms, keySelects name kv.1 = true ∧ kv.2 = v := by
  induction ms with
  | nil => simp [lastMember] at h
  | cons kv rest ih =>
    cases hr : lastMember name rest with
    | some w =>
      simp only [lastMember, hr] at h
      have hw : w = v := Option.some.inj h
      subst hw
      obtain ⟨kv1, hmem, hk⟩ := ih hr
      exact ⟨kv1, List.mem_cons_of_mem _ hmem, hk.1, hk.2⟩
    | none =>
      simp only [lastMember, hr] at h
      by_cases hk : keySelects name kv.1 = true
      · simp only [hk, if_true] at h
        exact ⟨kv, List.mem_cons_self _ _, hk, Option.some.inj h⟩
      · simp [hk] at h

theorem strOr_lastMember_cons (name : String) (kv : String × JsonValue)
    (rest : List (String × JsonValue)) (d : String)
    (hall : ∀ kv ∈ rest, keySelects name kv.1 = true → ∃ x, kv.2 = .str x) :
    strOr (lastMember name (kv :: rest)) d =
      strOr (lastMember name rest) (if keySelects name kv.1 = true then strOr (some kv.2) d else d) := by
  cases hr : lastMember name rest with
  | some w =>
    obtain ⟨kv1, hmem, hk, hv⟩ := lastMember_mem name rest w hr
    obtain ⟨x, hx⟩ := hall kv1 hmem hk
    have hw : w = .str x := hv.symm.trans hx
    subst hw
    simp [lastMember, hr, strOr]
  | none =>
    by_cases hk : keySelects name kv.1 = true
    · simp [lastMember, hr, hk, strOr]
    · simp [lastMember, hr, hk, strOr]

/-- Decoding an object whose `status` and `meldung` members are all strings reports no error
and leaves in each field the value of the last member that selects it. -/
theorem foldl_decodeMember_errorResponse (ms : List (String × JsonValue)) :
    ∀ t : ErrorResponse,
    (∀ kv ∈ ms, (keySelects "status" kv.1 = true ∨ keySelects "meldung" kv.1 = true) →
      ∃ x, kv.2 = .str x) →
    ms.foldl (decodeMember errorResponseFields) (t, none) =
      (⟨strOr (lastMember "status" ms) t.Status, strOr (lastMember "meldung" ms) t.Message⟩,
        none) := by
  induction ms with
  | nil => intro t _; rfl
  | cons kv rest ih =>
    intro t hstr
    have hrest : ∀ kv ∈ rest,
        (keySelects "status" kv.1 = true ∨ keySelects "meldung" kv.1 = true) →
          ∃ x, kv.2 = .str x := fun kv hkv => hstr kv (List.mem_cons_of_mem _ hkv)
    have hhead := hstr kv (List.mem_cons_self _ _)
    rw [List.foldl_cons,
      strOr_lastMember_cons "status" kv rest _ (fun kv hkv h => hrest kv hkv (Or.inl h)),
      strOr_lastMember_cons "meldung" kv rest _ (fun kv hkv h => hrest kv hkv (Or.inr h))]
    obtain ⟨k, v⟩ := kv
    by_cases h1 : keySelects "status" k = true
    · obtain ⟨x, hx⟩ := hhead (Or.inl h1)
      have h2 : ¬ keySelects "meldung" k = true :=
        fun h2 => keySelects_status_meldung k ⟨h1, h2⟩
      simp only at hx
      subst hx
      rw [decodeMember_status t none k x h1, ih _ hrest]
      simp [h1, h2, strOr]
    · by_cases h2 : keySelects "meldung" k = true
      · obtain ⟨x, hx⟩ := hhead (Or.inr h2)
        simp only at hx
        subst hx
        rw [decodeMember_meldung t none k x h2, ih _ hrest]
        simp [h1, h2, strOr]
      · rw [decodeMember_skipped t none (k, v) h1 h2, ih _ hrest]
        simp [h1, h2]

/-- Claim C2, as amended. For every HTTP status and every body that is a JSON object in which
each member selecting `status` or `meldung` is a string, with `s` the value of its `status`
field and `m` the value of its `meldung` field: the Error of `handleErrorResponse` has that
HTTP status and Status `s`; its Message is `m` when `m` is not empty, and the default message
of the HTTP status when `m` is empty. -/
theorem handleErrorResponse_wellFormed_body (statusCode : Int)
    (ms : List (String × JsonValue)) (s m : String)
    (hstr : ∀ kv ∈ ms, (keySelects "status" kv.1 = true ∨ keySelects "meldung" kv.1 = true) →
      ∃ x, kv.2 = .str x)
    (hs : lastMember "status" ms = some (.str s))
    (hm : lastMember "meldung" ms = some (.str m)) :
    handleErrorResponse statusCode (some (.obj ms)) =
      ⟨statusCode, s, if m = "" then getDefaultErrorMessage statusCode s else m⟩ ∧
    (m ≠ "" → handleErrorResponse statusCode (some (.obj ms)) = ⟨statusCode, s, m⟩) := by
  have hdec : decodedErrorResponse (some (.obj ms)) = (⟨s, m⟩, none) := by
    simp only [decodedErrorResponse, jsonDecode, unmarshalErrorResponse, unmarshalStruct]
    rw [foldl_decodeMember_errorResponse ms _ hstr, hs, hm]
    rfl
  have hmain : handleErrorResponse statusCode (some (.obj ms)) =
      ⟨statusCode, s, if m = "" then getDefaultErrorMessage statusCode s else m⟩ := by
    rw [handleErrorResponse_decoded statusCode _ (by rw [hdec]), hdec]
  refine ⟨hmain, fun hne => ?_⟩
  rw [hmain]
  simp [hne]

/-- Witness of C2 (amended): the body served for an unassigned VAT ID under HTTP 404. -/
theorem handleErrorResponse_wellFormed_body_witness :
    handleErrorResponse 404
        (some (encodeErrorResponse ⟨"evatr-2001", "Die angefragte USt-IdNr. ist nicht vergeben."⟩))
      = ⟨404, "evatr-2001", "Die angefragte USt-IdNr. ist nicht vergeben."⟩ :=
  (handleErrorResponse_wellFormed_body 404
    [("status", .str "evatr-2001"),
     ("meldung", .str "Die angefragte USt-IdNr. ist nicht vergeben.")]
    "evatr-2001" "Die angefragte USt-IdNr. ist nicht vergeben."
    (by
      intro kv hkv _
      simp only [List.mem_cons, List.mem_singleton, List.not_mem_nil, or_false] at hkv
      rcases hkv with h | h <;> subst h <;> exact ⟨_, rfl⟩)
    rfl rfl).2 (by decide)

/-- Counterexample to C2 as stated: a well-formed error body whose `meldung` is the empty
string does not give an Error with that (empty) message; the default text is put in. -/
theorem handleErrorResponse_empty_meldung :
    (handleErrorResponse 404 (some (encodeErrorResponse ⟨"evatr-2001", ""⟩))).Status
        = "evatr-2001" ∧
    (handleErrorResponse 404 (some (encodeErrorResponse ⟨"evatr-2001", ""⟩))).Message
        = "Not found: VAT ID not found or requesting VAT ID invalid" ∧
    (handleErrorResponse 404 (some (encodeErrorResponse ⟨"evatr-2001", ""⟩))).Message
        ≠ (⟨"evatr-2001", ""⟩ : ErrorResponse).Message := by
  decide

/-- Claim C3. When the body cannot be decoded as an ErrorResponse, or decodes with an empty
message, the Message of the Error is the fixed default text of the HTTP status, for each of
400, 403, 404, 500 and 503, whatever the upstream status is. -/
theorem handleErrorResponse_default_message (body : Body)
    (h : (decodedErrorResponse body).2 ≠ none ∨ (decodedErrorResponse body).1.Message = "") :
    (handleErrorResponse 400 body).Message = "Bad request: Invalid input parameters" ∧
    (handleErrorResponse 403 body).Message
      = "Forbidden: Not authorized to perform this request" ∧
    (handleErrorResponse 404 body).Message
      = "Not found: VAT ID not found or requesting VAT ID invalid" ∧
    (handleErrorResponse 500 body).Message
      = "Internal server error: Processing temporarily not possible" ∧
    (handleErrorResponse 503 body).Message = "Service unavailable: Please try again later" := by
  by_cases hd : (decodedErrorResponse body).2 = none
  · have hm : (decodedErrorResponse body).1.Message = "" := h.resolve_left (fun hn => hn hd)
    simp only [handleErrorResponse_decoded _ body hd, hm, if_true]
    simp [getDefaultErrorMessage]
  · simp only [handleErrorResponse_failed _ body hd]
    simp [getDefaultErrorMessage]

/-- Witness of C3: a body that is not JSON, and a decoded body with an empty message. -/
theorem handleErrorResponse_default_message_witness :
    (handleErrorResponse 404 none).Message
      = "Not found: VAT ID not found or requesting VAT ID invalid" ∧
    (handleErrorResponse 503 (some (encodeErrorResponse ⟨"evatr-1001", ""⟩))).Message
      = "Service unavailable: Please try again later" :=
  ⟨(handleErrorResponse_default_message none (Or.inl (by decide))).2.2.1,
   (handleErrorResponse_default_message (some (encodeErrorResponse ⟨"evatr-1001", ""⟩))
      (Or.inr (by decide))).2.2.2.2⟩

/-- Claim C4, as amended. For an HTTP status N other than 400, 403, 404, 500 and 503 and a
body that cannot be decoded or decodes with an empty message, the Message is
"Unexpected error (HTTP N): " followed by the upstream status, with a capital U, N in decimal;
the upstream status is the decoded one, and empty when the body cannot be decoded. -/
theorem handleErrorResponse_generic_message (N : Int) (body : Body)
    (hN : N ≠ 400 ∧ N ≠ 403 ∧ N ≠ 404 ∧ N ≠ 500 ∧ N ≠ 503)
    (h : (decodedErrorResponse body).2 ≠ none ∨ (decodedErrorResponse body).1.Message = "") :
    (handleErrorResponse N body).Message
      = "Unexpected error (HTTP " ++ toString N ++ "): " ++ (handleErrorResponse N body).Status ∧
    ((decodedErrorResponse body).2 = none →
      (handleErrorResponse N body).Status = (decodedErrorResponse body).1.Status) ∧
    ((decodedErrorResponse body).2 ≠ none → (handleErrorResponse N body).Status = "") := by
  obtain ⟨h1, h2, h3, h4, h5⟩ := hN
  by_cases hd : (decodedErrorResponse body).2 = none
  · have hm : (decodedErrorResponse body).1.Message = "" := h.resolve_left (fun hn => hn hd)
    simp only [handleErrorResponse_decoded _ body hd, hm, if_true]
    simp [getDefaultErrorMessage, h1, h2, h3, h4, h5, hd]
  · simp only [handleErrorResponse_failed _ body hd]
    simp [getDefaultErrorMessage, h1, h2, h3, h4, h5, hd]

/-- Witness of C4 (amended): HTTP 502 with a body that is not JSON, where the upstream status
is empty. -/
theorem handleErrorResponse_generic_message_witness :
    toString (502 : Int) = "502" ∧
    (handleErrorResponse 502 none).Message
      = "Unexpected error (HTTP " ++ toString (502 : Int) ++ "): "
          ++ (handleErrorResponse 502 none).Status ∧
    (handleErrorResponse 502 none).Status = "" :=
  ⟨by decide,
   (handleErrorResponse_generic_message 502 none (by decide) (Or.inl (by decide))).1,
   (handleErrorResponse_generic_message 502 none (by decide) (Or.inl (by decide))).2.2
      (by decide)⟩

/-- Counterexample to C4 as stated: the generic text starts with a capital letter, so it is
not "unexpected error (HTTP N): ..." (HTTP 502 without a JSON body, and HTTP 418 with a decoded
status and an empty message). -/
theorem generic_message_starts_with_capital :
    (handleErrorResponse 502 none).Message = "Unexpected error (HTTP 502): " ∧
    (handleErrorResponse 502 none).Message ≠ "unexpected error (HTTP 502): " ∧
    (handleErrorResponse 418 (some (encodeErrorResponse ⟨"evatr-9999", ""⟩))).Message
      = "Unexpected error (HTTP 418): evatr-9999" ∧
    (handleErrorResponse 418 (some (encodeErrorResponse ⟨"evatr-9999", ""⟩))).Message
      ≠ "unexpected error (HTTP 418): evatr-9999" := by
  decide

/-! ## The transport adapter (C5, C6) -/

theorem doRequest_sent {α : Type} (rt : GoRuntime) (c : Client) (method path : String)
    (body : Option ValidationRequest) (unmarshal : JsonValue → α → α × Option GoError)
    (result : Option α) (req : HttpRequest)
    (h : (doRequest rt c method path body unmarshal result).sent = [req]) :
    buildRequest rt c method path body = .ok req := by
  unfold doRequest at h
  cases hb : buildRequest rt c method path body with
  | error e => simp [hb] at h
  | ok r =>
    simp only [hb] at h
    have hr : [r] = [req] := by
      revert h
      cases c.httpClient.Do r with
      | error e => exact id
      | ok resp =>
        dsimp only
        split
        · cases result with
          | none => exact id
          | some t =>
            dsimp only
            split <;> exact id
        · exact id
    exact congrArg Except.ok (List.head_eq_of_cons_eq hr)

theorem doRequest_non2xx {α : Type} (rt : GoRuntime) (c : Client) (method path : String)
    (body : Option ValidationRequest) (unmarshal : JsonValue → α → α × Option GoError)
    (result : Option α) (req : HttpRequest) (resp : HttpResponse)
    (hb : buildRequest rt c method path body = .ok req)
    (hdo : c.httpClient.Do req = .ok resp)
    (hcode : ¬ (200 ≤ resp.StatusCode ∧ resp.StatusCode < 300)) :
    doRequest rt c method path body unmarshal result =
      ⟨result, some (.evatr (handleErrorResponse resp.StatusCode resp.Body)), [req]⟩ := by
  simp only [doRequest, hb, hdo, hcode, if_false]

theorem doRequest_2xx {α : Type} (rt : GoRuntime) (c : Client) (method path : String)
    (body : Option ValidationRequest) (unmarshal : JsonValue → α → α × Option GoError)
    (t v : α) (req : HttpRequest) (resp : HttpResponse)
    (hb : buildRequest rt c method path body = .ok req)
    (hdo : c.httpClient.Do req = .ok resp)
    (hcode : 200 ≤ resp.StatusCode ∧ resp.StatusCode < 300)
    (hdec : jsonDecode unmarshal resp.Body t = (v, none)) :
    doRequest rt c method path body unmarshal (some t) = ⟨some v, none, [req]⟩ := by
  simp only [doRequest, hb, hdo, hcode, and_self, if_true, hdec]

theorem postAbfrage_sent (rt : GoRuntime) (c : Client) (r : ValidationRequest) :
    (postAbfrage rt c r).sent =
      (doRequest rt c "POST" "/v1/abfrage" (some r) unmarshalValidationResponse
        (some zeroValidationResponse)).sent := by
  unfold postAbfrage
  dsimp only
  split <;> rfl

theorem validateVAT_sent (rt : GoRuntime) (c : Client) (a b : String)
    (h : (ValidateVAT rt c a b).sent ≠ []) :
    ValidateVAT rt c a b = postAbfrage rt c ⟨a, b, "", "", "", ""⟩ := by
  unfold ValidateVAT at h ⊢
  split_ifs at h ⊢ <;> first | rfl | exact absurd rfl h

theorem validateVATQualified_sent (rt : GoRuntime) (c : Client)
    (a b n ci st pc : String) (h : (ValidateVATQualified rt c a b n ci st pc).sent ≠ []) :
    ValidateVATQualified rt c a b n ci st pc = postAbfrage rt c ⟨a, b, n, st, pc, ci⟩ := by
  unfold ValidateVATQualified at h ⊢
  split_ifs at h ⊢ <;> first | rfl | exact absurd rfl h

theorem validateVATWithRequest_sent (rt : GoRuntime) (c : Client)
    (r : Option ValidationRequest) (h : (ValidateVATWithRequest rt c r).sent ≠ []) :
    ∃ x, r = some x ∧ ValidateVATWithRequest rt c r = postAbfrage rt c x := by
  cases r with
  | none => exact absurd rfl h
  | some x =>
    refine ⟨x, rfl, ?_⟩
    unfold ValidateVATWithRequest at h ⊢
    dsimp only at h ⊢
    split_ifs at h ⊢ <;> first | rfl | exact absurd rfl h

theorem postAbfrage_non2xx (rt : GoRuntime) (c : Client) (r : ValidationRequest)
    (req : HttpRequest) (resp : HttpResponse)
    (hs : (postAbfrage rt c r).sent = [req])
    (hdo : c.httpClient.Do req = .ok resp)
    (hcode : ¬ (200 ≤ resp.StatusCode ∧ resp.StatusCode < 300)) :
    postAbfrage rt c r =
      ⟨none, some (.evatr (handleErrorResponse resp.StatusCode resp.Body)), [req]⟩ := by
  rw [postAbfrage_sent] at hs
  have hb := doRequest_sent rt c _ _ _ _ _ req hs
  unfold postAbfrage
  rw [doRequest_non2xx rt c _ _ _ _ _ req resp hb hdo hcode]

theorem ne_nil_of_eq_singleton {α : Type} {l : List α} {a : α} (h : l = [a]) : l ≠ [] := by
  rw [h]; exact List.cons_ne_nil _ _

/-- Claim C5. When the HTTP client answers the request of a call with a response whose status
lies outside 200..299, whatever the body: `doRequest` returns a `*Error` with that status as
StatusCode and leaves the result target as it was, and each of the five public operations
returns a nil result together with that Error. -/
theorem non2xx_response_is_upstream_error (rt : GoRuntime) (c : Client) (req : HttpRequest)
    (resp : HttpResponse) (hdo : c.httpClient.Do req = .ok resp)
    (hcode : ¬ (200 ≤ resp.StatusCode ∧ resp.StatusCode < 300)) :
    (handleErrorResponse resp.StatusCode resp.Body).StatusCode = resp.StatusCode ∧
    (∀ (α : Type) (method path : String) (body : Option ValidationRequest)
        (unmarshal : JsonValue → α → α × Option GoError) (result : Option α),
      (doRequest rt c method path body unmarshal result).sent = [req] →
        (doRequest rt c method path body unmarshal result).value = result ∧
        (doRequest rt c method path body unmarshal result).err
          = some (.evatr (handleErrorResponse resp.StatusCode resp.Body))) ∧
    (∀ a b : String, (ValidateVAT rt c a b).sent = [req] →
        (ValidateVAT rt c a b).value = none ∧
        (ValidateVAT rt c a b).err
          = some (.evatr (handleErrorResponse resp.StatusCode resp.Body))) ∧
    (∀ a b n ci st pc : String, (ValidateVATQualified rt c a b n ci st pc).sent = [req] →
        (ValidateVATQualified rt c a b n ci st pc).value = none ∧
        (ValidateVATQualified rt c a b n ci st pc).err
          = some (.evatr (handleErrorResponse resp.StatusCode resp.Body))) ∧
    (∀ r : Option ValidationRequest, (ValidateVATWithRequest rt c r).sent = [req] →
        (ValidateVATWithRequest rt c r).value = none ∧
        (ValidateVATWithRequest rt c r).err
          = some (.evatr (handleErrorResponse resp.StatusCode resp.Body))) ∧
    ((GetStatusMessages rt c).sent = [req] →
        (GetStatusMessages rt c).value = none ∧
        (GetStatusMessages rt c).err
          = some (.evatr (handleErrorResponse resp.StatusCode resp.Body))) ∧
    ((GetEUMemberStates rt c).sent = [req] →
        (GetEUMemberStates rt c).value = none ∧
        (GetEUMemberStates rt c).err
          = some (.evatr (handleErrorResponse resp.StatusCode resp.Body))) := by
  refine ⟨rfl, ?_, ?_, ?_, ?_, ?_, ?_⟩
  · intro α method path body unmarshal result hs
    have hb := doRequest_sent rt c _ _ _ _ _ req hs
    rw [doRequest_non2xx rt c _ _ _ _ _ req resp hb hdo hcode]
    exact ⟨rfl, rfl⟩
  · intro a b hs
    have he := validateVAT_sent rt c a b (ne_nil_of_eq_singleton hs)
    rw [he] at hs ⊢
    rw [postAbfrage_non2xx rt c _ req resp hs hdo hcode]
    exact ⟨rfl, rfl⟩
  · intro a b n ci st pc hs
    have he := validateVATQualified_sent rt c a b n ci st pc (ne_nil_of_eq_singleton hs)
    rw [he] at hs ⊢
    rw [postAbfrage_non2xx rt c _ req resp hs hdo hcode]
    exact ⟨rfl, rfl⟩
  · intro r hs
    obtain ⟨x, _, hx⟩ := validateVATWithRequest_sent rt c r (ne_nil_of_eq_singleton hs)
    rw [hx] at hs ⊢
    rw [postAbfrage_non2xx rt c _ req resp hs hdo hcode]
    exact ⟨rfl, rfl⟩
  · intro hs
    have hs1 : (doRequest rt c "GET" "/v1/info/statusmeldungen" none unmarshalStatusMessages
        (some none)).sent = [req] := by
      unfold GetStatusMessages at hs
      dsimp only at hs
      split at hs <;> exact hs
    have hb := doRequest_sent rt c _ _ _ _ _ req hs1
    unfold GetStatusMessages
    rw [doRequest_non2xx rt c _ _ _ _ _ req resp hb hdo hcode]
    exact ⟨rfl, rfl⟩
  · intro hs
    have hs1 : (doRequest rt c "GET" "/v1/info/eu_mitgliedstaaten" none unmarshalEUMemberStates
        (some none)).sent = [req] := by
      unfold GetEUMemberStates at hs
      dsimp only at hs
      split at hs <;> exact hs
    have hb := doRequest_sent rt c _ _ _ _ _ req hs1
    unfold GetEUMemberStates
    rw [doRequest_non2xx rt c _ _ _ _ _ req resp hb hdo hcode]
    exact ⟨rfl, rfl⟩

/-- Witness of C5: the scenario of the test "VAT ID not found", HTTP 404 with the upstream
status "evatr-2001". -/
theorem non2xx_response_is_upstream_error_witness :
    (ValidateVAT sampleRuntime
        (serving 404 (some (encodeErrorResponse ⟨"evatr-2001", "nicht vergeben"⟩)))
        "DE123456789" "ATU99999999").value = none ∧
    (ValidateVAT sampleRuntime
        (serving 404 (some (encodeErrorResponse ⟨"evatr-2001", "nicht vergeben"⟩)))
        "DE123456789" "ATU99999999").err
      = some (.evatr ⟨404, "evatr-2001", "nicht vergeben"⟩) :=
  (non2xx_response_is_upstream_error sampleRuntime
      (serving 404 (some (encodeErrorResponse ⟨"evatr-2001", "nicht vergeben"⟩)))
      (sampleAbfrage ⟨"DE123456789", "ATU99999999", "", "", "", ""⟩)
      ⟨404, some (encodeErrorResponse ⟨"evatr-2001", "nicht vergeben"⟩)⟩ rfl
      (by decide)).2.2.1 "DE123456789" "ATU99999999" rfl

theorem foldl_omitEmpty {α : Type} (fields : List (Field α)) (name : String)
    (set : α → String → α)
    (hdec : ∀ t e s, decodeMember fields (t, e) (name, .str s) = (set t s, e))
    (t : α) (e : Option GoError) (s : String) (hzero : set t "" = t) :
    (omitEmpty name s).foldl (decodeMember fields) (t, e) = (set t s, e) := by
  unfold omitEmpty
  split_ifs with h
  · subst h
    simp [hzero]
  · simp [hdec]

theorem decode_id (t : ValidationResponse) (e : Option GoError) (s : String) :
    decodeMember validationResponseFields (t, e) ("id", .str s) = ({ t with ID := s }, e) :=
  rfl

theorem decode_anfrageZeitpunkt (t : ValidationResponse) (e : Option GoError) (s : String) :
    decodeMember validationResponseFields (t, e) ("anfrageZeitpunkt", .str s)
      = ({ t with RequestTimestamp := s }, e) :=
  rfl

theorem decode_gueltigAb (t : ValidationResponse) (e : Option GoError) (s : String) :
    decodeMember validationResponseFields (t, e) ("gueltigAb", .str s)
      = ({ t with ValidFrom := s }, e) :=
  rfl

theorem decode_gueltigBis (t : ValidationResponse) (e : Option GoError) (s : String) :
    decodeMember validationResponseFields (t, e) ("gueltigBis", .str s)
      = ({ t with ValidUntil := s }, e) :=
  rfl

theorem decode_status (t : ValidationResponse) (e : Option GoError) (s : String) :
    decodeMember validationResponseFields (t, e) ("status", .str s)
      = ({ t with Status := s }, e) :=
  rfl

theorem decode_ergFirmenname (t : ValidationResponse) (e : Option GoError) (s : String) :
    decodeMember validationResponseFields (t, e) ("ergFirmenname", .str s)
      = ({ t with CompanyNameResult := s }, e) :=
  rfl

theorem decode_ergStrasse (t : ValidationResponse) (e : Option GoError) (s : String) :
    decodeMember validationResponseFields (t, e) ("ergStrasse", .str s)
      = ({ t with StreetResult := s }, e) :=
  rfl

theorem decode_ergPlz (t : ValidationResponse) (e : Option GoError) (s : String) :
    decodeMember validationResponseFields (t, e) ("ergPlz", .str s)
      = ({ t with PostalCodeResult := s }, e) :=
  rfl

theorem decode_ergOrt (t : ValidationResponse) (e : Option GoError) (s : String) :
    decodeMember validationResponseFields (t, e) ("ergOrt", .str s)
      = ({ t with CityResult := s }, e) :=
  rfl

/-- Decoding the encoding of a `ValidationResponse` into a fresh target gives it back. -/
theorem unmarshal_encodeValidationResponse (v : ValidationResponse) :
    unmarshalValidationResponse (encodeValidationResponse v) zeroValidationResponse
      = (v, none) := by
  simp only [unmarshalValidationResponse, unmarshalStruct, encodeValidationResponse,
    List.foldl_append, List.foldl_cons, List.foldl_nil]
  rw [foldl_omitEmpty _ "id" _ decode_id _ _ _ rfl, decode_anfrageZeitpunkt,
    foldl_omitEmpty _ "gueltigAb" _ decode_gueltigAb _ _ _ rfl,
    foldl_omitEmpty _ "gueltigBis" _ decode_gueltigBis _ _ _ rfl, decode_status,
    foldl_omitEmpty _ "ergFirmenname" _ decode_ergFirmenname _ _ _ rfl,
    foldl_omitEmpty _ "ergStrasse" _ decode_ergStrasse _ _ _ rfl,
    foldl_omitEmpty _ "ergPlz" _ decode_ergPlz _ _ _ rfl,
    foldl_omitEmpty _ "ergOrt" _ decode_ergOrt _ _ _ rfl]

theorem decode_feld (t : StatusMessage) (e : Option GoError) (s : String) :
    decodeMember statusMessageFields (t, e) ("feld", .str s) = ({ t with Field := s }, e) :=
  rfl

/-- Decoding the encoding of a `StatusMessage` whose HTTP code is a 64-bit integer into a
fresh target gives it back. -/
theorem unmarshal_encodeStatusMessage (m : StatusMessage)
    (hr : -(2 ^ 63) ≤ m.HTTPCode ∧ m.HTTPCode < 2 ^ 63) :
    unmarshalStruct statusMessageFields "evatr.StatusMessage" (encodeStatusMessage m)
      zeroStatusMessage = (m, none) := by
  have hint : ∀ (t : StatusMessage) (e : Option GoError),
      decodeMember statusMessageFields (t, e) ("httpcode", .int m.HTTPCode)
        = ({ t with HTTPCode := m.HTTPCode }, e) := by
    intro t e
    have hf : findField statusMessageFields "httpcode"
        = some ⟨"httpcode", storeInt (fun t i => { t with HTTPCode := i })⟩ := rfl
    simp only [decodeMember, hf, storeInt, hr, and_self, if_true]
  have h1 : ∀ (t : StatusMessage) (e : Option GoError) (s : String),
      decodeMember statusMessageFields (t, e) ("status", .str s)
        = ({ t with Status := s }, e) := fun _ _ _ => rfl
  have h2 : ∀ (t : StatusMessage) (e : Option GoError) (s : String),
      decodeMember statusMessageFields (t, e) ("kategorie", .str s)
        = ({ t with Category := s }, e) := fun _ _ _ => rfl
  have h3 : ∀ (t : StatusMessage) (e : Option GoError) (s : String),
      decodeMember statusMessageFields (t, e) ("meldung", .str s)
        = ({ t with Message := s }, e) := fun _ _ _ => rfl
  simp only [unmarshalStruct, encodeStatusMessage, List.foldl_append, List.foldl_cons,
    List.foldl_nil]
  rw [h1, h2, hint, foldl_omitEmpty _ "feld" _ decode_feld _ _ _ rfl, h3]

/-- Decoding the encoding of an `EUMemberState` into a fresh target gives it back. -/
theorem unmarshal_encodeEUMemberState (m : EUMemberState) :
    unmarshalStruct euMemberStateFields "evatr.EUMemberState" (encodeEUMemberState m)
      zeroEUMemberState = (m, none) :=
  rfl

theorem foldl_decodeItem_map {α : Type} (elem : JsonValue → α → α × Option GoError) (zero : α)
    (enc : α → JsonValue) (xs : List α) :
    ∀ (acc : List α) (e : Option GoError), (∀ x ∈ xs, elem (enc x) zero = (x, none)) →
      (xs.map enc).foldl (decodeItem elem zero) (acc, e) = (acc ++ xs, e) := by
  induction xs with
  | nil => intro acc e _; simp
  | cons x rest ih =>
    intro acc e h
    have hx := h x (List.mem_cons_self _ _)
    simp only [List.map_cons, List.foldl_cons, decodeItem, hx]
    rw [ih _ _ (fun y hy => h y (List.mem_cons_of_mem _ hy))]
    simp

/-- Decoding the encoding of a slice into the nil slice gives the slice back, when every
element decodes to itself. -/
theorem unmarshalSlice_encodeSlice {α : Type} (elem : JsonValue → α → α × Option GoError)
    (zero : α) (what : String) (enc : α → JsonValue) (xs : Option (List α))
    (h : ∀ x ∈ xs.getD [], elem (enc x) zero = (x, none)) :
    jsonDecode (unmarshalSlice elem zero what) (some (encodeSlice enc xs)) none
      = (xs, none) := by
  cases xs with
  | none => rfl
  | some l =>
    simp only [jsonDecode, encodeSlice, unmarshalSlice]
    rw [foldl_decodeItem_map elem zero enc l [] none h]
    simp

theorem postAbfrage_2xx (rt : GoRuntime) (c : Client) (r : ValidationRequest)
    (req : HttpRequest) (resp : HttpResponse) (v : ValidationResponse)
    (hs : (postAbfrage rt c r).sent = [req])
    (hdo : c.httpClient.Do req = .ok resp)
    (hcode : 200 ≤ resp.StatusCode ∧ resp.StatusCode < 300)
    (hbody : resp.Body = some (encodeValidationResponse v)) :
    postAbfrage rt c r = ⟨some v, none, [req]⟩ := by
  rw [postAbfrage_sent] at hs
  have hb := doRequest_sent rt c _ _ _ _ _ req hs
  have hdec : jsonDecode unmarshalValidationResponse resp.Body zeroValidationResponse
      = (v, none) := by
    rw [hbody]
    exact unmarshal_encodeValidationResponse v
  unfold postAbfrage
  rw [doRequest_2xx rt c _ _ _ _ _ v req resp hb hdo hcode hdec]
  rfl

/-- Claim C6. When the HTTP client answers the request of a call with a 2xx response whose
body is the encoding of a value of the target shape, the operation returns a nil error and
exactly that value: each validation operation returns the served `ValidationResponse` (so
Status and the four verification results are those of the body), and each listing operation
returns the served sequence, element by element in the same order. -/
theorem ok_response_is_decoded (rt : GoRuntime) (c : Client) (req : HttpRequest)
    (resp : HttpResponse) (hdo : c.httpClient.Do req = .ok resp)
    (hcode : 200 ≤ resp.StatusCode ∧ resp.StatusCode < 300) :
    (∀ v : ValidationResponse, resp.Body = some (encodeValidationResponse v) →
      (∀ a b : String, (ValidateVAT rt c a b).sent = [req] →
        (ValidateVAT rt c a b).value = some v ∧ (ValidateVAT rt c a b).err = none) ∧
      (∀ a b n ci st pc : String, (ValidateVATQualified rt c a b n ci st pc).sent = [req] →
        (ValidateVATQualified rt c a b n ci st pc).value = some v ∧
        (ValidateVATQualified rt c a b n ci st pc).err = none) ∧
      (∀ r : Option ValidationRequest, (ValidateVATWithRequest rt c r).sent = [req] →
        (ValidateVATWithRequest rt c r).value = some v ∧
        (ValidateVATWithRequest rt c r).err = none)) ∧
    (∀ xs : Option (List StatusMessage),
      (∀ m ∈ xs.getD [], -(2 ^ 63) ≤ m.HTTPCode ∧ m.HTTPCode < 2 ^ 63) →
      resp.Body = some (encodeSlice encodeStatusMessage xs) →
      (GetStatusMessages rt c).sent = [req] →
        (GetStatusMessages rt c).value = xs ∧ (GetStatusMessages rt c).err = none) ∧
    (∀ xs : Option (List EUMemberState),
      resp.Body = some (encodeSlice encodeEUMemberState xs) →
      (GetEUMemberStates rt c).sent = [req] →
        (GetEUMemberStates rt c).value = xs ∧ (GetEUMemberStates rt c).err = none) := by
  refine ⟨fun v hbody => ⟨?_, ?_, ?_⟩, ?_, ?_⟩
  · intro a b hs
    have he := validateVAT_sent rt c a b (ne_nil_of_eq_singleton hs)
    rw [he] at hs ⊢
    rw [postAbfrage_2xx rt c _ req resp v hs hdo hcode hbody]
    exact ⟨rfl, rfl⟩
  · intro a b n ci st pc hs
    have he := validateVATQualified_sent rt c a b n ci st pc (ne_nil_of_eq_singleton hs)
    rw [he] at hs ⊢
    rw [postAbfrage_2xx rt c _ req resp v hs hdo hcode hbody]
    exact ⟨rfl, rfl⟩
  · intro r hs
    obtain ⟨x, _, hx⟩ := validateVATWithRequest_sent rt c r (ne_nil_of_eq_singleton hs)
    rw [hx] at hs ⊢
    rw [postAbfrage_2xx rt c _ req resp v hs hdo hcode hbody]
    exact ⟨rfl, rfl⟩
  · intro xs hrange hbody hs
    have hs1 : (doRequest rt c "GET" "/v1/info/statusmeldungen" none unmarshalStatusMessages
        (some none)).sent = [req] := by
      unfold GetStatusMessages at hs
      dsimp only at hs
      split at hs <;> exact hs
    have hb := doRequest_sent rt c _ _ _ _ _ req hs1
    have hdec : jsonDecode unmarshalStatusMessages resp.Body none = (xs, none) := by
      rw [hbody]
      exact unmarshalSlice_encodeSlice _ _ _ _ xs
        (fun m hm => unmarshal_encodeStatusMessage m (hrange m hm))
    unfold GetStatusMessages
    rw [doRequest_2xx rt c _ _ _ _ _ xs req resp hb hdo hcode hdec]
    exact ⟨rfl, rfl⟩
  · intro xs hbody hs
    have hs1 : (doRequest rt c "GET" "/v1/info/eu_mitgliedstaaten" none unmarshalEUMemberStates
        (some none)).sent = [req] := by
      unfold GetEUMemberStates at hs
      dsimp only at hs
      split at hs <;> exact hs
    have hb := doRequest_sent rt c _ _ _ _ _ req hs1
    have hdec : jsonDecode unmarshalEUMemberStates resp.Body none = (xs, none) := by
      rw [hbody]
      exact unmarshalSlice_encodeSlice _ _ _ _ xs
        (fun m _ => unmarshal_encodeEUMemberState m)
    unfold GetEUMemberStates
    rw [doRequest_2xx rt c _ _ _ _ _ xs req resp hb hdo hcode hdec]
    exact ⟨rfl, rfl⟩

/-- Witness of C6: the scenario of the test "data mismatch", where the served body carries
`ergFirmenname` "B" and the returned response has `CompanyNameResult` equal to
`VerificationMismatch`, and the three member states served in the test of the listing. -/
theorem ok_response_is_decoded_witness :
    ((ValidateVATQualified sampleRuntime
        (serving 200 (some (encodeValidationResponse
          ⟨"", "2024-01-01T00:00:00Z", "", "", "evatr-0000", "B", "", "", "A"⟩)))
        "DE123456789" "ATU12345678" "Wrong Company Name" "Musterort" "" "").value
      = some ⟨"", "2024-01-01T00:00:00Z", "", "", StatusValid, VerificationMismatch, "", "",
          VerificationMatch⟩ ∧
    (ValidateVATQualified sampleRuntime
        (serving 200 (some (encodeValidationResponse
          ⟨"", "2024-01-01T00:00:00Z", "", "", "evatr-0000", "B", "", "", "A"⟩)))
        "DE123456789" "ATU12345678" "Wrong Company Name" "Musterort" "" "").err = none) ∧
    ((GetEUMemberStates sampleRuntime
        (serving 200 (some (encodeSlice encodeEUMemberState
          (some [⟨"DE", "Deutschland", true⟩, ⟨"AT", "Österreich", true⟩,
            ⟨"FR", "Frankreich", false⟩]))))).value
      = some [⟨"DE", "Deutschland", true⟩, ⟨"AT", "Österreich", true⟩,
          ⟨"FR", "Frankreich", false⟩] ∧
    (GetEUMemberStates sampleRuntime
        (serving 200 (some (encodeSlice encodeEUMemberState
          (some [⟨"DE", "Deutschland", true⟩, ⟨"AT", "Österreich", true⟩,
            ⟨"FR", "Frankreich", false⟩]))))).err = none) :=
  ⟨((ok_response_is_decoded sampleRuntime
      (serving 200 (some (encodeValidationResponse
        ⟨"", "2024-01-01T00:00:00Z", "", "", "evatr-0000", "B", "", "", "A"⟩)))
      (sampleAbfrage ⟨"DE123456789", "ATU12345678", "Wrong Company Name", "", "", "Musterort"⟩)
      ⟨200, some (encodeValidationResponse
        ⟨"", "2024-01-01T00:00:00Z", "", "", "evatr-0000", "B", "", "", "A"⟩)⟩ rfl
      (by decide)).1 _ rfl).2.1 "DE123456789" "ATU12345678" "Wrong Company Name" "Musterort"
        "" "" rfl,
   (ok_response_is_decoded sampleRuntime
      (serving 200 (some (encodeSlice encodeEUMemberState
        (some [⟨"DE", "Deutschland", true⟩, ⟨"AT", "Österreich", true⟩,
          ⟨"FR", "Frankreich", false⟩]))))
      (sampleInfo "/v1/info/eu_mitgliedstaaten")
      ⟨200, some (encodeSlice encodeEUMemberState
        (some [⟨"DE", "Deutschland", true⟩, ⟨"AT", "Österreich", true⟩,
          ⟨"FR", "Frankreich", false⟩]))⟩ rfl
      (by decide)).2.2 _ rfl rfl⟩

/-! ## Local input checks of the validation operations (C7 to C10) -/

/-- Claim C7. `ValidateVAT` returns a nil response and a non-nil error, without handing any
request to the HTTP client, whenever the requesting VAT ID is empty or does not start with
"DE" or the requested VAT ID is empty; the outcome is the same for every runtime and every
client, hence for every transport. -/
theorem validateVAT_fails_locally (rt : GoRuntime) (c : Client) (a b : String)
    (h : a = "" ∨ stringsHasPrefix a "DE" = false ∨ b = "") :
    (ValidateVAT rt c a b).value = none ∧
    (ValidateVAT rt c a b).err ≠ none ∧
    (ValidateVAT rt c a b).sent = [] ∧
    ∀ (rt1 : GoRuntime) (c1 : Client), ValidateVAT rt1 c1 a b = ValidateVAT rt c a b := by
  unfold ValidateVAT
  by_cases h1 : a = ""
  · simp [h1]
  · by_cases h2 : stringsHasPrefix a "DE" = false
    · simp [h1, h2]
    · by_cases h3 : b = ""
      · simp [h1, h2, h3]
      · rcases h with h | h | h
        · exact absurd h h1
        · exact absurd h h2
        · exact absurd h h3

/-- Witness of C7: the two failing calls of the tests and a requesting ID that is not German,
against a client whose transport would answer 200. -/
theorem validateVAT_fails_locally_witness :
    (ValidateVAT sampleRuntime (serving 200 none) "" "ATU12345678").sent = [] ∧
    (ValidateVAT sampleRuntime (serving 200 none) "DE123456789" "").sent = [] ∧
    (ValidateVAT sampleRuntime (serving 200 none) "FR12345678901" "ATU12345678").err
      = some (.errorString "requesting VAT ID must be German") :=
  ⟨(validateVAT_fails_locally sampleRuntime (serving 200 none) "" "ATU12345678"
      (Or.inl rfl)).2.2.1,
   (validateVAT_fails_locally sampleRuntime (serving 200 none) "DE123456789" ""
      (Or.inr (Or.inr rfl))).2.2.1,
   ((validateVAT_fails_locally sampleRuntime (serving 200 none) "FR12345678901" "ATU12345678"
      (Or.inr (Or.inl (by decide)))).2.2.2 sampleRuntime (serving 200 none)).symm ▸ rfl⟩

theorem doRequest_build_error {α : Type} (rt : GoRuntime) (c : Client) (method path : String)
    (body : Option ValidationRequest) (unmarshal : JsonValue → α → α × Option GoError)
    (result : Option α) (e : GoError)
    (hb : buildRequest rt c method path body = .error e) :
    doRequest rt c method path body unmarshal result = ⟨result, some e, []⟩ := by
  simp only [doRequest, hb]

theorem doRequest_build_ok {α : Type} (rt : GoRuntime) (c : Client) (method path : String)
    (body : Option ValidationRequest) (unmarshal : JsonValue → α → α × Option GoError)
    (result : Option α) (req : HttpRequest)
    (hb : buildRequest rt c method path body = .ok req) :
    (doRequest rt c method path body unmarshal result).sent = [req] := by
  simp only [doRequest, hb]
  cases c.httpClient.Do req with
  | error e => rfl
  | ok resp =>
    dsimp only
    split
    · cases result with
      | none => rfl
      | some t =>
        dsimp only
        split <;> rfl
    · rfl

/-- Whether the request of a call can be built does not depend on the request body. -/
theorem buildRequest_error_body (rt : GoRuntime) (c : Client) (method path : String)
    (x y : ValidationRequest) (e : GoError)
    (h : buildRequest rt c method path (some x) = .error e) :
    buildRequest rt c method path (some y) = .error e := by
  unfold buildRequest newRequestWithContext jsonEncode at h ⊢
  dsimp only at h ⊢
  split_ifs at h ⊢ <;> exact h

theorem postAbfrage_build_error (rt : GoRuntime) (c : Client) (r : ValidationRequest)
    (e : GoError) (hb : buildRequest rt c "POST" "/v1/abfrage" (some r) = .error e) :
    postAbfrage rt c r = ⟨none, some e, []⟩ := by
  unfold postAbfrage
  rw [doRequest_build_error rt c _ _ _ _ _ e hb]

theorem postAbfrage_build_ok (rt : GoRuntime) (c : Client) (r : ValidationRequest)
    (req : HttpRequest) (hb : buildRequest rt c "POST" "/v1/abfrage" (some r) = .ok req) :
    (postAbfrage rt c r).sent = [req] := by
  rw [postAbfrage_sent]
  exact doRequest_build_ok rt c _ _ _ _ _ req hb

/-- The exchange of a validation fails locally exactly when its request cannot be built. -/
theorem postAbfrage_failsLocally_iff (rt : GoRuntime) (c : Client) (r : ValidationRequest) :
    (postAbfrage rt c r).failsLocally ↔
      ∃ e, buildRequest rt c "POST" "/v1/abfrage" (some r) = .error e := by
  cases hb : buildRequest rt c "POST" "/v1/abfrage" (some r) with
  | error e =>
    rw [postAbfrage_build_error rt c r e hb]
    simp [Call.failsLocally]
  | ok req =>
    have hs := postAbfrage_build_ok rt c r req hb
    simp [Call.failsLocally, hs]

/-- The request built for a validation when the URL parses. -/
theorem buildRequest_abfrage (rt : GoRuntime) (c : Client) (r : ValidationRequest)
    (hurl : urlParses rt (c.baseURL ++ "/v1/abfrage") = true) :
    buildRequest rt c "POST" "/v1/abfrage" (some r) =
      .ok ⟨"POST", c.baseURL ++ "/v1/abfrage",
        [("Content-Type", "application/json"),
         ("User-Agent",
           "go-evatr/" ++ version rt ++ " (+https://github.com/hostwithquantum/go-evatr)"),
         ("Accept", "application/json")],
        some (encodeValidationRequest r)⟩ := by
  have hm : validMethod "POST" = true := by decide
  simp [buildRequest, newRequestWithContext, jsonEncode, hurl, hm, HttpRequest.setHeader]

/-- Method, URL and body of a request that `doRequest` hands to the HTTP client. -/
theorem buildRequest_ok_fields (rt : GoRuntime) (c : Client) (method path : String)
    (body : Option ValidationRequest) (req : HttpRequest)
    (hb : buildRequest rt c method path body = .ok req) :
    req.Method = (if method = "" then "GET" else method) ∧
    req.URL = c.baseURL ++ path ∧
    req.Body = body.map encodeValidationRequest := by
  unfold buildRequest newRequestWithContext jsonEncode at hb
  cases body with
  | none =>
    dsimp only at hb
    split_ifs at hb <;>
      (injection hb with hb; subst hb; refine ⟨?_, rfl, rfl⟩; simp [HttpRequest.setHeader, *])
  | some x =>
    dsimp only at hb
    split_ifs at hb <;>
      (injection hb with hb; subst hb; refine ⟨?_, rfl, rfl⟩; simp [HttpRequest.setHeader, *])

/-- Claim C8. `ValidateVATQualified` returns a nil response and a non-nil error, without
handing any request to the HTTP client, whenever the company name or the city is empty,
whatever the other arguments are and for every client. Street and postal code cause no local
failure: whether the call fails locally does not depend on them, and with the four other
arguments present and both of them empty the request is handed to the HTTP client as soon as
it can be built. -/
theorem validateVATQualified_required_fields (rt : GoRuntime) (c : Client)
    (a b n ci st pc : String) :
    ((n = "" ∨ ci = "") →
      (ValidateVATQualified rt c a b n ci st pc).value = none ∧
      (ValidateVATQualified rt c a b n ci st pc).err ≠ none ∧
      (ValidateVATQualified rt c a b n ci st pc).sent = [] ∧
      ∀ (rt1 : GoRuntime) (c1 : Client),
        ValidateVATQualified rt1 c1 a b n ci st pc = ValidateVATQualified rt c a b n ci st pc) ∧
    ((ValidateVATQualified rt c a b n ci st pc).failsLocally ↔
      (ValidateVATQualified rt c a b n ci "" "").failsLocally) ∧
    (a ≠ "" → b ≠ "" → n ≠ "" → ci ≠ "" →
      ∀ req, buildRequest rt c "POST" "/v1/abfrage" (some ⟨a, b, n, "", "", ci⟩) = .ok req →
        (ValidateVATQualified rt c a b n ci "" "").sent = [req] ∧
        req.Body = some (encodeValidationRequest ⟨a, b, n, "", "", ci⟩)) := by
  refine ⟨?_, ?_, ?_⟩
  · intro h
    unfold ValidateVATQualified
    by_cases h1 : a = ""
    · simp [h1]
    · by_cases h2 : b = ""
      · simp [h1, h2]
      · by_cases h3 : n = ""
        · simp [h1, h2, h3]
        · by_cases h4 : ci = ""
          · simp [h1, h2, h3, h4]
          · rcases h with h | h
            · exact absurd h h3
            · exact absurd h h4
  · unfold ValidateVATQualified
    by_cases h1 : a = ""
    · simp [h1]
    · by_cases h2 : b = ""
      · simp [h1, h2]
      · by_cases h3 : n = ""
        · simp [h1, h2, h3]
        · by_cases h4 : ci = ""
          · simp [h1, h2, h3, h4]
          · simp only [h1, h2, h3, h4, if_false]
            rw [postAbfrage_failsLocally_iff, postAbfrage_failsLocally_iff]
            constructor
            · rintro ⟨e, he⟩
              exact ⟨e, buildRequest_error_body rt c _ _ _ _ e he⟩
            · rintro ⟨e, he⟩
              exact ⟨e, buildRequest_error_body rt c _ _ _ _ e he⟩
  · intro h1 h2 h3 h4 req hb
    have hbody : req.Body = some (encodeValidationRequest ⟨a, b, n, "", "", ci⟩) :=
      (buildRequest_ok_fields rt c _ _ _ req hb).2.2
    refine ⟨?_, hbody⟩
    unfold ValidateVATQualified
    simp only [h1, h2, h3, h4, if_false]
    exact postAbfrage_build_ok rt c _ req hb

/-- Witness of C8: the two failing calls of the tests, and the call of the test "data
mismatch" with an empty street and an empty postal code, which reaches the HTTP client. -/
theorem validateVATQualified_required_fields_witness :
    (ValidateVATQualified sampleRuntime (serving 200 none)
        "DE123456789" "ATU12345678" "" "Berlin" "" "").sent = [] ∧
    (ValidateVATQualified sampleRuntime (serving 200 none)
        "DE123456789" "ATU12345678" "Test GmbH" "" "" "").sent = [] ∧
    (ValidateVATQualified sampleRuntime (serving 200 none)
        "DE123456789" "ATU12345678" "Wrong Company Name" "Musterort" "" "").sent
      = [sampleAbfrage ⟨"DE123456789", "ATU12345678", "Wrong Company Name", "", "",
          "Musterort"⟩] :=
  ⟨((validateVATQualified_required_fields sampleRuntime (serving 200 none)
      "DE123456789" "ATU12345678" "" "Berlin" "" "").1 (Or.inl rfl)).2.2.1,
   ((validateVATQualified_required_fields sampleRuntime (serving 200 none)
      "DE123456789" "ATU12345678" "Test GmbH" "" "" "").1 (Or.inr rfl)).2.2.1,
   ((validateVATQualified_required_fields sampleRuntime (serving 200 none)
      "DE123456789" "ATU12345678" "Wrong Company Name" "Musterort" "" "").2.2
      (by decide) (by decide) (by decide) (by decide) _ rfl).1⟩

/-- Claim C9, at the failing input. `ValidateVAT` rejects the requesting ID "FR12345678901"
locally, but `ValidateVATQualified` makes no such check: with the same requesting ID it hands
the request to the HTTP client and returns what the server answers. (An empty requesting ID is
rejected locally by both.) -/
theorem validateVATQualified_accepts_non_german :
    stringsHasPrefix "FR12345678901" "DE" = false ∧
    (ValidateVAT sampleRuntime
        (serving 200 (some (encodeValidationResponse
          ⟨"", "2024-01-01T00:00:00Z", "", "", "evatr-0000", "A", "", "", "A"⟩)))
        "FR12345678901" "ATU12345678").sent = [] ∧
    (ValidateVATQualified sampleRuntime
        (serving 200 (some (encodeValidationResponse
          ⟨"", "2024-01-01T00:00:00Z", "", "", "evatr-0000", "A", "", "", "A"⟩)))
        "FR12345678901" "ATU12345678" "Musterhaus GmbH" "Musterort" "" "").sent
      = [sampleAbfrage ⟨"FR12345678901", "ATU12345678", "Musterhaus GmbH", "", "",
          "Musterort"⟩] ∧
    (ValidateVATQualified sampleRuntime
        (serving 200 (some (encodeValidationResponse
          ⟨"", "2024-01-01T00:00:00Z", "", "", "evatr-0000", "A", "", "", "A"⟩)))
        "FR12345678901" "ATU12345678" "Musterhaus GmbH" "Musterort" "" "").err = none ∧
    (ValidateVATQualified sampleRuntime
        (serving 200 (some (encodeValidationResponse
          ⟨"", "2024-01-01T00:00:00Z", "", "", "evatr-0000", "A", "", "", "A"⟩)))
        "FR12345678901" "ATU12345678" "Musterhaus GmbH" "Musterort" "" "").value
      = some ⟨"", "2024-01-01T00:00:00Z", "", "", "evatr-0000", "A", "", "", "A"⟩ ∧
    (ValidateVATQualified sampleRuntime (serving 200 none)
        "" "ATU12345678" "Musterhaus GmbH" "Musterort" "" "").sent = [] :=
  ⟨by decide, rfl, rfl, rfl, rfl, rfl⟩

/-- Claim C10, as amended. For a client whose validation URL (base URL followed by
"/v1/abfrage") parses, `ValidateVATWithRequest` fails locally exactly when the request is nil
or its requesting or its requested VAT ID is empty; every other request, whatever its
requesting ID starts with and whatever its four company fields hold, is handed to the HTTP
client once, as a POST to that URL with the encoding of the unchanged request as body. -/
theorem validateVATWithRequest_fails_locally_iff (rt : GoRuntime) (c : Client)
    (r : Option ValidationRequest)
    (hurl : urlParses rt (c.baseURL ++ "/v1/abfrage") = true) :
    ((ValidateVATWithRequest rt c r).failsLocally ↔
      (r = none ∨ ∃ x, r = some x ∧ (x.RequestingVATID = "" ∨ x.RequestedVATID = ""))) ∧
    (∀ x, r = some x → x.RequestingVATID ≠ "" → x.RequestedVATID ≠ "" →
      ∃ req, (ValidateVATWithRequest rt c r).sent = [req] ∧ req.Method = "POST" ∧
        req.URL = c.baseURL ++ "/v1/abfrage" ∧
        req.Body = some (encodeValidationRequest x)) := by
  have hsent : ∀ x : ValidationRequest, x.RequestingVATID ≠ "" → x.RequestedVATID ≠ "" →
      ∃ req, (ValidateVATWithRequest rt c (some x)).sent = [req] ∧ req.Method = "POST" ∧
        req.URL = c.baseURL ++ "/v1/abfrage" ∧
        req.Body = some (encodeValidationRequest x) := by
    intro x h1 h2
    have hb := buildRequest_abfrage rt c x hurl
    obtain ⟨hm, hu, hbd⟩ := buildRequest_ok_fields rt c _ _ _ _ hb
    refine ⟨_, ?_, hm, hu, hbd⟩
    unfold ValidateVATWithRequest
    simp only [h1, h2, if_false]
    exact postAbfrage_build_ok rt c x _ hb
  refine ⟨?_, ?_⟩
  · cases r with
    | none => simp [ValidateVATWithRequest, Call.failsLocally]
    | some x =>
      by_cases h1 : x.RequestingVATID = ""
      · simp [ValidateVATWithRequest, Call.failsLocally, h1]
      · by_cases h2 : x.RequestedVATID = ""
        · simp [ValidateVATWithRequest, Call.failsLocally, h1, h2]
        · obtain ⟨req, hs, _⟩ := hsent x h1 h2
          simp [Call.failsLocally, hs, h1, h2]
  · intro x hx h1 h2
    subst hx
    exact hsent x h1 h2

/-- Witness of C10 (amended): a request whose requesting ID is not German and which carries
only a street goes out unchanged under the default base URL. -/
theorem validateVATWithRequest_fails_locally_iff_witness :
    ∃ req, (ValidateVATWithRequest sampleRuntime (serving 200 none)
        (some ⟨"FR12345678901", "ATU12345678", "", "Musterstrasse 22", "", ""⟩)).sent = [req] ∧
      req.Method = "POST" ∧
      req.URL = (serving 200 none).baseURL ++ "/v1/abfrage" ∧
      req.Body = some (encodeValidationRequest
        ⟨"FR12345678901", "ATU12345678", "", "Musterstrasse 22", "", ""⟩) :=
  (validateVATWithRequest_fails_locally_iff sampleRuntime (serving 200 none)
    (some ⟨"FR12345678901", "ATU12345678", "", "Musterstrasse 22", "", ""⟩) (by decide)).2
    _ rfl (by decide) (by decide)

/-- Counterexample to C10 as stated: the request is present and both of its IDs are non-empty,
yet the call fails locally, because the base URL of the client ends in a line feed and no
request can be created for it. -/
theorem validateVATWithRequest_unparsable_base_url :
    (ValidateVATWithRequest sampleRuntime
        ⟨"https://api.evatr.vies.bzst.de/app\n",
          ⟨fun _ => .ok ⟨200, none⟩, DefaultTimeout⟩⟩
        (some ⟨"DE123456789", "ATU12345678", "", "", "", ""⟩)).sent = [] ∧
    (ValidateVATWithRequest sampleRuntime
        ⟨"https://api.evatr.vies.bzst.de/app\n",
          ⟨fun _ => .ok ⟨200, none⟩, DefaultTimeout⟩⟩
        (some ⟨"DE123456789", "ATU12345678", "", "", "", ""⟩)).err
      = some (.wrapError "failed to create request: " (.foreign "parse: invalid URL")) ∧
    (ValidateVATWithRequest sampleRuntime
        ⟨"https://api.evatr.vies.bzst.de/app\n",
          ⟨fun _ => .ok ⟨200, none⟩, DefaultTimeout⟩⟩
        (some ⟨"DE123456789", "ATU12345678", "", "", "", ""⟩)).value = none :=
  ⟨rfl, rfl, rfl⟩

/-! ## Upstream status of a classified error (C20) -/

/-- Claim C20. The Status of the Error of `handleErrorResponse` is empty whenever the body
fails to decode as an ErrorResponse, whatever was stored in the status field before the
decoding error; when the body decodes without error and its message is empty, the Status is
the decoded status and only the Message is replaced by the default text. -/
theorem handleErrorResponse_status (statusCode : Int) (body : Body) :
    ((decodedErrorResponse body).2 ≠ none →
      (handleErrorResponse statusCode body).Status = "") ∧
    ((decodedErrorResponse body).2 = none → (decodedErrorResponse body).1.Message = "" →
      (handleErrorResponse statusCode body).Status = (decodedErrorResponse body).1.Status ∧
      (handleErrorResponse statusCode body).Message
        = getDefaultErrorMessage statusCode (decodedErrorResponse body).1.Status) := by
  refine ⟨fun h => ?_, fun h hm => ?_⟩
  · rw [handleErrorResponse_failed statusCode body h]
  · rw [handleErrorResponse_decoded statusCode body h]
    simp [hm]

/-- Witness of C20: under HTTP 400, a body whose `status` is read and whose `meldung` is a
number fails to decode, and the Status is empty although "evatr-0004" had been stored; a body
with the same status and an empty message keeps the status. -/
theorem handleErrorResponse_status_witness :
    (decodedErrorResponse
        (some (.obj [("status", .str "evatr-0004"), ("meldung", .int 5)]))).1.Status
      = "evatr-0004" ∧
    (handleErrorResponse 400
        (some (.obj [("status", .str "evatr-0004"), ("meldung", .int 5)]))).Status = "" ∧
    (handleErrorResponse 400 (some (encodeErrorResponse ⟨"evatr-0004", ""⟩))).Status
      = "evatr-0004" ∧
    (handleErrorResponse 400 (some (encodeErrorResponse ⟨"evatr-0004", ""⟩))).Message
      = "Bad request: Invalid input parameters" :=
  ⟨by decide,
   (handleErrorResponse_status 400
      (some (.obj [("status", .str "evatr-0004"), ("meldung", .int 5)]))).1 (by decide),
   ((handleErrorResponse_status 400 (some (encodeErrorResponse ⟨"evatr-0004", ""⟩))).2
      (by decide) (by decide)).1,
   ((handleErrorResponse_status 400 (some (encodeErrorResponse ⟨"evatr-0004", ""⟩))).2
      (by decide) (by decide)).2⟩

/-! ## Optional timestamps (C18) -/

/-- Claim C18. For a response whose `ValidFrom` is empty, `GetValidFrom` returns the zero
instant and a nil error without calling the parser, whatever the other fields hold and
whatever the parser would answer; likewise `GetValidUntil` for an empty `ValidUntil`. A string
handed to the parser by either accessor is never empty, and a non-empty field is handed to
the parser as it is. -/
theorem getValidFrom_empty (parseRFC3339 : String → Except GoError Time)
    (v : ValidationResponse) :
    (v.ValidFrom = "" →
      (v.GetValidFrom parseRFC3339).value.IsZero = true ∧
      (v.GetValidFrom parseRFC3339).value = Time.zero ∧
      (v.GetValidFrom parseRFC3339).err = none ∧
      (v.GetValidFrom parseRFC3339).parsed = []) ∧
    (v.ValidUntil = "" →
      (v.GetValidUntil parseRFC3339).value.IsZero = true ∧
      (v.GetValidUntil parseRFC3339).value = Time.zero ∧
      (v.GetValidUntil parseRFC3339).err = none ∧
      (v.GetValidUntil parseRFC3339).parsed = []) ∧
    (∀ s ∈ (v.GetValidFrom parseRFC3339).parsed, s ≠ "") ∧
    (∀ s ∈ (v.GetValidUntil parseRFC3339).parsed, s ≠ "") ∧
    (v.ValidFrom ≠ "" → (v.GetValidFrom parseRFC3339).parsed = [v.ValidFrom]) ∧
    (v.ValidUntil ≠ "" → (v.GetValidUntil parseRFC3339).parsed = [v.ValidUntil]) := by
  have hp : ∀ s, (timeParse parseRFC3339 s).parsed = [s] := by
    intro s
    unfold timeParse
    split <;> rfl
  refine ⟨?_, ?_, ?_, ?_, ?_, ?_⟩
  · intro h
    simp [ValidationResponse.GetValidFrom, h, Time.zero, Time.IsZero]
  · intro h
    simp [ValidationResponse.GetValidUntil, h, Time.zero, Time.IsZero]
  · intro s hs
    unfold ValidationResponse.GetValidFrom at hs
    split_ifs at hs with h
    · simp at hs
    · rw [hp] at hs
      simp only [List.mem_singleton] at hs
      rw [hs]
      exact h
  · intro s hs
    unfold ValidationResponse.GetValidUntil at hs
    split_ifs at hs with h
    · simp at hs
    · rw [hp] at hs
      simp only [List.mem_singleton] at hs
      rw [hs]
      exact h
  · intro h
    simp only [ValidationResponse.GetValidFrom, h, if_false]
    exact hp _
  · intro h
    simp only [ValidationResponse.GetValidUntil, h, if_false]
    exact hp _

/-- Witness of C18: the response of the test "GetValidFrom empty", with a parser that would
reject every string. -/
theorem getValidFrom_empty_witness :
    (zeroValidationResponse.GetValidFrom rejectingParser).value.IsZero = true ∧
    (zeroValidationResponse.GetValidFrom rejectingParser).err = none ∧
    (zeroValidationResponse.GetValidUntil rejectingParser).value.IsZero = true ∧
    (zeroValidationResponse.GetValidUntil rejectingParser).err = none ∧
    (({ zeroValidationResponse with ValidFrom := "2024-01-01T00:00:00Z" } :
        ValidationResponse).GetValidFrom rejectingParser).parsed = ["2024-01-01T00:00:00Z"] :=
  ⟨((getValidFrom_empty rejectingParser zeroValidationResponse).1 rfl).1,
   ((getValidFrom_empty rejectingParser zeroValidationResponse).1 rfl).2.2.1,
   ((getValidFrom_empty rejectingParser zeroValidationResponse).2.1 rfl).1,
   ((getValidFrom_empty rejectingParser zeroValidationResponse).2.1 rfl).2.2.1,
   (getValidFrom_empty rejectingParser
      { zeroValidationResponse with ValidFrom := "2024-01-01T00:00:00Z" }).2.2.2.2.1
      (by decide)⟩

/-! ## The operations by cases (C11 to C14) -/

theorem doRequest_outcome {α : Type} (rt : GoRuntime) (c : Client) (method path : String)
    (body : Option ValidationRequest) (unmarshal : JsonValue → α → α × Option GoError)
    (t : α) :
    (doRequest rt c method path body unmarshal (some t)).outcome =
      exchangeOutcome rt c method path body (fun b => (jsonDecode unmarshal b t).2) := by
  unfold doRequest exchangeOutcome
  cases buildRequest rt c method path body with
  | error e => rfl
  | ok req =>
    dsimp only
    cases c.httpClient.Do req with
    | error e => rfl
    | ok resp =>
      dsimp only
      by_cases hc : 200 ≤ resp.StatusCode ∧ resp.StatusCode < 300
      · simp only [hc, and_self, if_true]
        rcases hd : jsonDecode unmarshal resp.Body t with ⟨t1, _ | e⟩
        · rfl
        · rfl
      · simp only [hc, if_false]
        rfl

theorem postAbfrage_outcome (rt : GoRuntime) (c : Client) (r : ValidationRequest) :
    (postAbfrage rt c r).outcome =
      exchangeOutcome rt c "POST" "/v1/abfrage" (some r)
        (fun b => (jsonDecode unmarshalValidationResponse b zeroValidationResponse).2) := by
  rw [← doRequest_outcome]
  unfold postAbfrage
  dsimp only
  split <;> simp_all [Call.outcome]

/-- Every public operation behaves as its description by cases says. -/
theorem run_eq_expected (rt : GoRuntime) (c : Client) (op : Operation) :
    op.run rt c = op.expected rt c := by
  cases op with
  | validateVAT a b =>
    by_cases h1 : a = ""
    · simp [Operation.run, Operation.expected, Operation.plan, ValidateVAT, h1, Call.outcome]
    · by_cases h2 : stringsHasPrefix a "DE" = false
      · simp [Operation.run, Operation.expected, Operation.plan, ValidateVAT, h1, h2,
          Call.outcome]
      · have h2t : stringsHasPrefix a "DE" = true := by simpa using h2
        by_cases h3 : b = ""
        · simp [Operation.run, Operation.expected, Operation.plan, ValidateVAT, h1, h2t, h3,
            Call.outcome]
        · have hv : ValidateVAT rt c a b = postAbfrage rt c ⟨a, b, "", "", "", ""⟩ := by
            simp [ValidateVAT, h1, h2t, h3]
          have hp : (Operation.validateVAT a b).plan
              = .ok ("POST", "/v1/abfrage", some ⟨a, b, "", "", "", ""⟩) := by
            simp [Operation.plan, h1, h2t, h3]
          simp only [Operation.run, Operation.expected, hv, hp]
          exact postAbfrage_outcome rt c _
  | validateVATQualified a b n ci st pc =>
    by_cases h1 : a = ""
    · simp [Operation.run, Operation.expected, Operation.plan, ValidateVATQualified, h1,
        Call.outcome]
    · by_cases h2 : b = ""
      · simp [Operation.run, Operation.expected, Operation.plan, ValidateVATQualified, h1, h2,
          Call.outcome]
      · by_cases h3 : n = ""
        · simp [Operation.run, Operation.expected, Operation.plan, ValidateVATQualified, h1,
            h2, h3, Call.outcome]
        · by_cases h4 : ci = ""
          · simp [Operation.run, Operation.expected, Operation.plan, ValidateVATQualified, h1,
              h2, h3, h4, Call.outcome]
          · have hv : ValidateVATQualified rt c a b n ci st pc
                = postAbfrage rt c ⟨a, b, n, st, pc, ci⟩ := by
              simp [ValidateVATQualified, h1, h2, h3, h4]
            have hp : (Operation.validateVATQualified a b n ci st pc).plan
                = .ok ("POST", "/v1/abfrage", some ⟨a, b, n, st, pc, ci⟩) := by
              simp [Operation.plan, h1, h2, h3, h4]
            simp only [Operation.run, Operation.expected, hv, hp]
            exact postAbfrage_outcome rt c _
  | validateVATWithRequest r =>
    cases r with
    | none => rfl
    | some x =>
      by_cases h1 : x.RequestingVATID = ""
      · simp [Operation.run, Operation.expected, Operation.plan, ValidateVATWithRequest, h1,
          Call.outcome]
      · by_cases h2 : x.RequestedVATID = ""
        · simp [Operation.run, Operation.expected, Operation.plan, ValidateVATWithRequest, h1,
            h2, Call.outcome]
        · have hv : ValidateVATWithRequest rt c (some x) = postAbfrage rt c x := by
            simp [ValidateVATWithRequest, h1, h2]
          have hp : (Operation.validateVATWithRequest (some x)).plan
              = .ok ("POST", "/v1/abfrage", some x) := by
            simp [Operation.plan, h1, h2]
          simp only [Operation.run, Operation.expected, hv, hp]
          exact postAbfrage_outcome rt c _
  | getStatusMessages =>
    have hv : (GetStatusMessages rt c).outcome
        = (doRequest rt c "GET" "/v1/info/statusmeldungen" none unmarshalStatusMessages
            (some none)).outcome := by
      unfold GetStatusMessages
      dsimp only
      split <;> simp_all [Call.outcome]
    exact hv.trans (doRequest_outcome rt c _ _ _ _ _)
  | getEUMemberStates =>
    have hv : (GetEUMemberStates rt c).outcome
        = (doRequest rt c "GET" "/v1/info/eu_mitgliedstaaten" none unmarshalEUMemberStates
            (some none)).outcome := by
      unfold GetEUMemberStates
      dsimp only
      split <;> simp_all [Call.outcome]
    exact hv.trans (doRequest_outcome rt c _ _ _ _ _)

theorem buildRequest_error_wraps (rt : GoRuntime) (c : Client) (method path : String)
    (body : Option ValidationRequest) (e : GoError)
    (h : buildRequest rt c method path body = .error e) : IsEvatrErr (some e) = false := by
  unfold buildRequest newRequestWithContext jsonEncode at h
  cases body with
  | none =>
    dsimp only at h
    split_ifs at h <;> (injection h with h; subst h; rfl)
  | some x =>
    dsimp only at h
    split_ifs at h <;> (injection h with h; subst h; rfl)

theorem plan_error_local (op : Operation) (e : GoError) (h : op.plan = .error e) :
    IsEvatrErr (some e) = false := by
  cases op with
  | validateVAT a b =>
    simp only [Operation.plan] at h
    split_ifs at h <;> (injection h with h; subst h; rfl)
  | validateVATQualified a b n ci st pc =>
    simp only [Operation.plan] at h
    split_ifs at h <;> (injection h with h; subst h; rfl)
  | validateVATWithRequest r =>
    cases r with
    | none =>
      simp only [Operation.plan] at h
      injection h with h
      subst h
      rfl
    | some x =>
      simp only [Operation.plan] at h
      split_ifs at h <;> (injection h with h; subst h; rfl)
  | getStatusMessages => simp [Operation.plan] at h
  | getEUMemberStates => simp [Operation.plan] at h

/-- The four ways in which a public operation ends. -/
theorem run_cases (rt : GoRuntime) (c : Client) (op : Operation) :
    (∃ e, IsEvatrErr (some e) = false ∧ op.run rt c = ⟨(), some e, []⟩) ∨
    (∃ req e, c.httpClient.Do req = .error e ∧
      op.run rt c = ⟨(), some (.wrapError "failed to execute request: " e), [req]⟩) ∨
    (∃ req resp, c.httpClient.Do req = .ok resp ∧
      (200 ≤ resp.StatusCode ∧ resp.StatusCode < 300) ∧
      op.run rt c = ⟨(), (op.decodeError resp.Body).map
        (GoError.wrapError "failed to decode response: "), [req]⟩) ∨
    (∃ req resp, c.httpClient.Do req = .ok resp ∧
      ¬ (200 ≤ resp.StatusCode ∧ resp.StatusCode < 300) ∧
      op.run rt c
        = ⟨(), some (.evatr (handleErrorResponse resp.StatusCode resp.Body)), [req]⟩) := by
  rw [run_eq_expected]
  unfold Operation.expected
  cases hp : op.plan with
  | error e => exact Or.inl ⟨e, plan_error_local op e hp, rfl⟩
  | ok x =>
    obtain ⟨method, path, body⟩ := x
    dsimp only
    unfold exchangeOutcome
    cases hb : buildRequest rt c method path body with
    | error e => exact Or.inl ⟨e, buildRequest_error_wraps rt c _ _ _ e hb, rfl⟩
    | ok req =>
      dsimp only
      cases hd : c.httpClient.Do req with
      | error e => exact Or.inr (Or.inl ⟨req, e, hd, rfl⟩)
      | ok resp =>
        dsimp only
        by_cases hc : 200 ≤ resp.StatusCode ∧ resp.StatusCode < 300
        · refine Or.inr (Or.inr (Or.inl ⟨req, resp, hd, hc, ?_⟩))
          simp only [hc, and_self, if_true]
          cases op.decodeError resp.Body <;> rfl
        · refine Or.inr (Or.inr (Or.inr ⟨req, resp, hd, hc, ?_⟩))
          simp only [hc, if_false]

/-- Claim C11. For every public operation the returned error is an upstream Error
(`IsEvatrErr` is true) exactly when the HTTP client delivered a response with a status outside
200..299. A call that made no network call (an input check failed, or the request could not
be encoded or created), a transport failure with whatever error value, and a 2xx response
whose body fails to decode into the result target (an empty body included) each give a non-nil
error for which `IsEvatrErr` is false. -/
theorem upstream_error_iff_non2xx (rt : GoRuntime) (c : Client) (op : Operation) :
    (IsEvatrErr (op.run rt c).err = true ↔
      ∃ req resp, (op.run rt c).sent = [req] ∧ c.httpClient.Do req = .ok resp ∧
        ¬ (200 ≤ resp.StatusCode ∧ resp.StatusCode < 300)) ∧
    ((op.run rt c).sent = [] →
      (op.run rt c).err ≠ none ∧ IsEvatrErr (op.run rt c).err = false) ∧
    (∀ req e, (op.run rt c).sent = [req] → c.httpClient.Do req = .error e →
      (op.run rt c).err ≠ none ∧ IsEvatrErr (op.run rt c).err = false) ∧
    (∀ req resp, (op.run rt c).sent = [req] → c.httpClient.Do req = .ok resp →
      (200 ≤ resp.StatusCode ∧ resp.StatusCode < 300) → op.decodeError resp.Body ≠ none →
      (op.run rt c).err ≠ none ∧ IsEvatrErr (op.run rt c).err = false) ∧
    op.decodeError none ≠ none := by
  have hnone : op.decodeError none ≠ none := by
    cases op <;> simp [Operation.decodeError, jsonDecode]
  refine ⟨?_, ?_, ?_, ?_, hnone⟩
  · rcases run_cases rt c op with ⟨e, he, hr⟩ | ⟨req, e, hd, hr⟩ | ⟨req, resp, hd, hc, hr⟩ |
      ⟨req, resp, hd, hc, hr⟩
    · rw [hr]
      simp [he]
    · rw [hr]
      simp only [IsEvatrErr, Bool.false_eq_true, false_iff]
      rintro ⟨req1, resp1, hs, hd1, _⟩
      have : req = req1 := List.head_eq_of_cons_eq hs
      subst this
      rw [hd] at hd1
      cases hd1
    · rw [hr]
      have hl : IsEvatrErr ((op.decodeError resp.Body).map
          (GoError.wrapError "failed to decode response: ")) = false := by
        cases op.decodeError resp.Body <;> rfl
      simp only [hl, Bool.false_eq_true, false_iff]
      rintro ⟨req1, resp1, hs, hd1, hc1⟩
      have : req = req1 := List.head_eq_of_cons_eq hs
      subst this
      rw [hd] at hd1
      injection hd1 with hd1
      subst hd1
      exact hc1 hc
    · rw [hr]
      simp only [IsEvatrErr, true_iff]
      exact ⟨req, resp, rfl, hd, hc⟩
  · intro hs
    rcases run_cases rt c op with ⟨e, he, hr⟩ | ⟨req, e, hd, hr⟩ | ⟨req, resp, hd, hc, hr⟩ |
      ⟨req, resp, hd, hc, hr⟩
    · rw [hr]
      exact ⟨by simp, he⟩
    · rw [hr] at hs
      simp at hs
    · rw [hr] at hs
      simp at hs
    · rw [hr] at hs
      simp at hs
  · intro req0 e0 hs hd0
    rcases run_cases rt c op with ⟨e, he, hr⟩ | ⟨req, e, hd, hr⟩ | ⟨req, resp, hd, hc, hr⟩ |
      ⟨req, resp, hd, hc, hr⟩
    · rw [hr]
      exact ⟨by simp, he⟩
    · rw [hr]
      exact ⟨by simp, rfl⟩
    · rw [hr] at hs
      have : req = req0 := List.head_eq_of_cons_eq hs
      subst this
      rw [hd] at hd0
      cases hd0
    · rw [hr] at hs
      have : req = req0 := List.head_eq_of_cons_eq hs
      subst this
      rw [hd] at hd0
      cases hd0
  · intro req0 resp0 hs hd0 hc0 hdec
    rcases run_cases rt c op with ⟨e, he, hr⟩ | ⟨req, e, hd, hr⟩ | ⟨req, resp, hd, hc, hr⟩ |
      ⟨req, resp, hd, hc, hr⟩
    · rw [hr]
      exact ⟨by simp, he⟩
    · rw [hr]
      exact ⟨by simp, rfl⟩
    · rw [hr] at hs
      have : req = req0 := List.head_eq_of_cons_eq hs
      subst this
      rw [hd] at hd0
      injection hd0 with hd0
      subst hd0
      rw [hr]
      cases hde : op.decodeError resp.Body with
      | none => exact absurd hde hdec
      | some e => exact ⟨by simp, rfl⟩
    · rw [hr] at hs
      have : req = req0 := List.head_eq_of_cons_eq hs
      subst this
      rw [hd] at hd0
      injection hd0 with hd0
      subst hd0
      exact absurd hc0 hc

/-- Witness of C11: a transport that fails with a value of type `*Error`, a 200 response with
an empty body, and a 404 response. -/
theorem upstream_error_iff_non2xx_witness :
    IsEvatrErr ((Operation.validateVAT "DE123456789" "ATU12345678").run sampleRuntime
      (refusing (.evatr ⟨503, "evatr-1001", "nicht erreichbar"⟩))).err = false ∧
    IsEvatrErr (Operation.getStatusMessages.run sampleRuntime (serving 200 none)).err = false ∧
    IsEvatrErr ((Operation.validateVAT "DE123456789" "ATU12345678").run sampleRuntime
      (serving 404 none)).err = true :=
  ⟨((upstream_error_iff_non2xx sampleRuntime
      (refusing (.evatr ⟨503, "evatr-1001", "nicht erreichbar"⟩))
      (Operation.validateVAT "DE123456789" "ATU12345678")).2.2.1
      (sampleAbfrage ⟨"DE123456789", "ATU12345678", "", "", "", ""⟩)
      (.evatr ⟨503, "evatr-1001", "nicht erreichbar"⟩) rfl rfl).2,
   ((upstream_error_iff_non2xx sampleRuntime (serving 200 none)
      Operation.getStatusMessages).2.2.2.1
      (sampleInfo "/v1/info/statusmeldungen") ⟨200, none⟩ rfl rfl (by decide)
      (by simp [Operation.decodeError, jsonDecode])).2,
   (upstream_error_iff_non2xx sampleRuntime (serving 404 none)
      (Operation.validateVAT "DE123456789" "ATU12345678")).1.mpr
      ⟨sampleAbfrage ⟨"DE123456789", "ATU12345678", "", "", "", ""⟩, ⟨404, none⟩, rfl, rfl,
        by decide⟩⟩

theorem exchangeOutcome_sent_ok (rt : GoRuntime) (c : Client) (method path : String)
    (body : Option ValidationRequest) (decodeError : Body → Option GoError)
    (req : HttpRequest) (hb : buildRequest rt c method path body = .ok req) :
    (exchangeOutcome rt c method path body decodeError).sent = [req] := by
  simp only [exchangeOutcome, hb]
  cases c.httpClient.Do req with
  | error e => rfl
  | ok resp =>
    dsimp only
    split
    · split <;> rfl
    · rfl

theorem run_sent_plan_error (rt : GoRuntime) (c : Client) (op : Operation) (e : GoError)
    (hp : op.plan = .error e) : (op.run rt c).sent = [] := by
  rw [run_eq_expected]
  simp only [Operation.expected, hp]

theorem run_sent_build_error (rt : GoRuntime) (c : Client) (op : Operation)
    (method path : String) (body : Option ValidationRequest) (e : GoError)
    (hp : op.plan = .ok (method, path, body))
    (hb : buildRequest rt c method path body = .error e) : (op.run rt c).sent = [] := by
  rw [run_eq_expected]
  simp only [Operation.expected, hp, exchangeOutcome, hb]

theorem run_sent_build_ok (rt : GoRuntime) (c : Client) (op : Operation)
    (method path : String) (body : Option ValidationRequest) (req : HttpRequest)
    (hp : op.plan = .ok (method, path, body))
    (hb : buildRequest rt c method path body = .ok req) : (op.run rt c).sent = [req] := by
  rw [run_eq_expected]
  simp only [Operation.expected, hp]
  exact exchangeOutcome_sent_ok rt c _ _ _ _ req hb

theorem run_sent_mem (rt : GoRuntime) (c : Client) (op : Operation) (req : HttpRequest)
    (h : req ∈ (op.run rt c).sent) :
    ∃ method path body, op.plan = .ok (method, path, body) ∧
      buildRequest rt c method path body = .ok req := by
  cases hp : op.plan with
  | error e =>
    rw [run_sent_plan_error rt c op e hp] at h
    simp at h
  | ok x =>
    obtain ⟨method, path, body⟩ := x
    cases hb : buildRequest rt c method path body with
    | error e =>
      rw [run_sent_build_error rt c op _ _ _ e hp hb] at h
      simp at h
    | ok r =>
      rw [run_sent_build_ok rt c op _ _ _ r hp hb] at h
      simp only [List.mem_singleton] at h
      subst h
      exact ⟨method, path, body, rfl, hb⟩

/-- Claim C12. Every public operation hands at most one request to the HTTP client per call:
none when an input check rejects the arguments or the request cannot be created, and exactly
one otherwise, whatever the HTTP client does with it; a transport failure or a 5xx response
is followed by no second request. -/
theorem at_most_one_round_trip (rt : GoRuntime) (c : Client) (op : Operation) :
    (op.run rt c).sent.length ≤ 1 ∧
    (∀ e, op.plan = .error e → (op.run rt c).sent = []) ∧
    (∀ method path body e, op.plan = .ok (method, path, body) →
      buildRequest rt c method path body = .error e → (op.run rt c).sent = []) ∧
    (∀ method path body req, op.plan = .ok (method, path, body) →
      buildRequest rt c method path body = .ok req → (op.run rt c).sent = [req]) ∧
    (∀ req e, req ∈ (op.run rt c).sent → c.httpClient.Do req = .error e →
      (op.run rt c).sent = [req]) ∧
    (∀ req resp, req ∈ (op.run rt c).sent → c.httpClient.Do req = .ok resp →
      500 ≤ resp.StatusCode → (op.run rt c).sent = [req]) := by
  have hmem : ∀ req, req ∈ (op.run rt c).sent → (op.run rt c).sent = [req] := by
    intro req h
    obtain ⟨method, path, body, hp, hb⟩ := run_sent_mem rt c op req h
    exact run_sent_build_ok rt c op _ _ _ req hp hb
  refine ⟨?_, run_sent_plan_error rt c op, ?_, ?_, fun req _ h _ => hmem req h,
    fun req _ h _ _ => hmem req h⟩
  · cases hs : (op.run rt c).sent with
    | nil => simp
    | cons r rest =>
      have := hmem r (by rw [hs]; exact List.mem_cons_self _ _)
      rw [hs] at this
      rw [this]
      simp
  · intro method path body e hp hb
    exact run_sent_build_error rt c op _ _ _ e hp hb
  · intro method path body req hp hb
    exact run_sent_build_ok rt c op _ _ _ req hp hb

/-- Witness of C12: a transport failure and a 503 response each leave exactly the one request
of the call, and a rejected input leaves none. -/
theorem at_most_one_round_trip_witness :
    ((Operation.validateVAT "DE123456789" "ATU12345678").run sampleRuntime
      (refusing (.foreign "connection refused"))).sent
      = [sampleAbfrage ⟨"DE123456789", "ATU12345678", "", "", "", ""⟩] ∧
    (Operation.getEUMemberStates.run sampleRuntime (serving 503 none)).sent
      = [sampleInfo "/v1/info/eu_mitgliedstaaten"] ∧
    ((Operation.validateVAT "" "ATU12345678").run sampleRuntime (serving 503 none)).sent = [] :=
  ⟨(at_most_one_round_trip sampleRuntime (refusing (.foreign "connection refused"))
      (Operation.validateVAT "DE123456789" "ATU12345678")).2.2.2.2.1
      (sampleAbfrage ⟨"DE123456789", "ATU12345678", "", "", "", ""⟩)
      (.foreign "connection refused")
      (by
        rw [show ((Operation.validateVAT "DE123456789" "ATU12345678").run sampleRuntime
            (refusing (.foreign "connection refused"))).sent
          = [sampleAbfrage ⟨"DE123456789", "ATU12345678", "", "", "", ""⟩] from rfl]
        exact List.mem_singleton_self _) rfl,
   (at_most_one_round_trip sampleRuntime (serving 503 none)
      Operation.getEUMemberStates).2.2.2.2.2
      (sampleInfo "/v1/info/eu_mitgliedstaaten") ⟨503, none⟩
      (by
        rw [show (Operation.getEUMemberStates.run sampleRuntime (serving 503 none)).sent
          = [sampleInfo "/v1/info/eu_mitgliedstaaten"] from rfl]
        exact List.mem_singleton_self _) rfl (by decide),
   (at_most_one_round_trip sampleRuntime (serving 503 none)
      (Operation.validateVAT "" "ATU12345678")).2.1
      (.errorString "requesting VAT ID is required") rfl⟩

theorem plan_validateVAT_ok (a b method path : String) (body : Option ValidationRequest)
    (h : (Operation.validateVAT a b).plan = .ok (method, path, body)) :
    method = "POST" ∧ path = "/v1/abfrage" ∧ body = some ⟨a, b, "", "", "", ""⟩ := by
  simp only [Operation.plan] at h
  split_ifs at h
  injection h with h
  injection h with h1 h2
  injection h2 with h2 h3
  exact ⟨h1.symm, h2.symm, h3.symm⟩

theorem plan_validateVATQualified_ok (a b n ci st pc method path : String)
    (body : Option ValidationRequest)
    (h : (Operation.validateVATQualified a b n ci st pc).plan = .ok (method, path, body)) :
    method = "POST" ∧ path = "/v1/abfrage" ∧ body = some ⟨a, b, n, st, pc, ci⟩ := by
  simp only [Operation.plan] at h
  split_ifs at h
  injection h with h
  injection h with h1 h2
  injection h2 with h2 h3
  exact ⟨h1.symm, h2.symm, h3.symm⟩

theorem plan_validateVATWithRequest_ok (r : Option ValidationRequest) (method path : String)
    (body : Option ValidationRequest)
    (h : (Operation.validateVATWithRequest r).plan = .ok (method, path, body)) :
    method = "POST" ∧ path = "/v1/abfrage" ∧ body = r ∧ r.isSome = true := by
  cases r with
  | none => simp [Operation.plan] at h
  | some x =>
    simp only [Operation.plan] at h
    split_ifs at h
    injection h with h
    injection h with h1 h2
    injection h2 with h2 h3
    exact ⟨h1.symm, h2.symm, h3.symm, rfl⟩

/-- Method, URL and body of a request of a validation operation. -/
theorem abfrage_request (rt : GoRuntime) (c : Client) (op : Operation) (r : ValidationRequest)
    (hplan : ∀ method path body, op.plan = .ok (method, path, body) →
      method = "POST" ∧ path = "/v1/abfrage" ∧ body = some r)
    (req : HttpRequest) (h : req ∈ (op.run rt c).sent) :
    req.Method = "POST" ∧ req.URL = c.baseURL ++ "/v1/abfrage" ∧
      req.Body = some (encodeValidationRequest r) := by
  obtain ⟨method, path, body, hp, hb⟩ := run_sent_mem rt c op req h
  obtain ⟨h1, h2, h3⟩ := hplan method path body hp
  subst h1 h2 h3
  obtain ⟨hm, hu, hbd⟩ := buildRequest_ok_fields rt c _ _ _ req hb
  exact ⟨by simpa using hm, hu, hbd⟩

/-- The request built for a listing when the URL parses. -/
theorem buildRequest_info (rt : GoRuntime) (c : Client) (path : String)
    (hurl : urlParses rt (c.baseURL ++ path) = true) :
    buildRequest rt c "GET" path none =
      .ok ⟨"GET", c.baseURL ++ path,
        [("User-Agent",
           "go-evatr/" ++ version rt ++ " (+https://github.com/hostwithquantum/go-evatr)"),
         ("Accept", "application/json")],
        none⟩ := by
  have hm : validMethod "GET" = true := by decide
  simp [buildRequest, newRequestWithContext, hurl, hm, HttpRequest.setHeader]

/-- Claim C13. For every client with base URL `b`, every request of the three validation
operations is a POST to `b` followed by "/v1/abfrage" and carries a body, every request of
`GetStatusMessages` is a GET to `b` followed by "/v1/info/statusmeldungen" without a body,
every request of `GetEUMemberStates` is a GET to `b` followed by
"/v1/info/eu_mitgliedstaaten" without a body, and the three paths are pairwise distinct. Each
operation does issue such a request: a validation operation whenever its input checks pass
and the URL parses, a listing operation whenever the URL parses. -/
theorem request_method_and_url (rt : GoRuntime) (c : Client) :
    (∀ (a b : String), ∀ req ∈ (ValidateVAT rt c a b).sent,
      req.Method = "POST" ∧ req.URL = c.baseURL ++ "/v1/abfrage" ∧ req.Body.isSome = true) ∧
    (∀ (a b n ci st pc : String), ∀ req ∈ (ValidateVATQualified rt c a b n ci st pc).sent,
      req.Method = "POST" ∧ req.URL = c.baseURL ++ "/v1/abfrage" ∧ req.Body.isSome = true) ∧
    (∀ (r : Option ValidationRequest), ∀ req ∈ (ValidateVATWithRequest rt c r).sent,
      req.Method = "POST" ∧ req.URL = c.baseURL ++ "/v1/abfrage" ∧ req.Body.isSome = true) ∧
    (∀ req ∈ (GetStatusMessages rt c).sent,
      req.Method = "GET" ∧ req.URL = c.baseURL ++ "/v1/info/statusmeldungen" ∧
        req.Body = none) ∧
    (∀ req ∈ (GetEUMemberStates rt c).sent,
      req.Method = "GET" ∧ req.URL = c.baseURL ++ "/v1/info/eu_mitgliedstaaten" ∧
        req.Body = none) ∧
    "/v1/abfrage" ≠ "/v1/info/statusmeldungen" ∧
    "/v1/abfrage" ≠ "/v1/info/eu_mitgliedstaaten" ∧
    "/v1/info/statusmeldungen" ≠ "/v1/info/eu_mitgliedstaaten" ∧
    (∀ (a b : String), a ≠ "" → stringsHasPrefix a "DE" = true → b ≠ "" →
      urlParses rt (c.baseURL ++ "/v1/abfrage") = true →
      ∃ req, (ValidateVAT rt c a b).sent = [req] ∧ req.Method = "POST" ∧
        req.URL = c.baseURL ++ "/v1/abfrage" ∧ req.Body.isSome = true) ∧
    (∀ (a b n ci st pc : String), a ≠ "" → b ≠ "" → n ≠ "" → ci ≠ "" →
      urlParses rt (c.baseURL ++ "/v1/abfrage") = true →
      ∃ req, (ValidateVATQualified rt c a b n ci st pc).sent = [req] ∧ req.Method = "POST" ∧
        req.URL = c.baseURL ++ "/v1/abfrage" ∧ req.Body.isSome = true) ∧
    (∀ (x : ValidationRequest), x.RequestingVATID ≠ "" → x.RequestedVATID ≠ "" →
      urlParses rt (c.baseURL ++ "/v1/abfrage") = true →
      ∃ req, (ValidateVATWithRequest rt c (some x)).sent = [req] ∧ req.Method = "POST" ∧
        req.URL = c.baseURL ++ "/v1/abfrage" ∧ req.Body.isSome = true) ∧
    (urlParses rt (c.baseURL ++ "/v1/info/statusmeldungen") = true →
      ∃ req, (GetStatusMessages rt c).sent = [req] ∧ req.Method = "GET" ∧
        req.URL = c.baseURL ++ "/v1/info/statusmeldungen" ∧ req.Body = none) ∧
    (urlParses rt (c.baseURL ++ "/v1/info/eu_mitgliedstaaten") = true →
      ∃ req, (GetEUMemberStates rt c).sent = [req] ∧ req.Method = "GET" ∧
        req.URL = c.baseURL ++ "/v1/info/eu_mitgliedstaaten" ∧ req.Body = none) := by
  have m1 : ∀ (a b : String), ∀ req ∈ (ValidateVAT rt c a b).sent,
      req.Method = "POST" ∧ req.URL = c.baseURL ++ "/v1/abfrage" ∧
        req.Body.isSome = true := by
    intro a b req h
    obtain ⟨h1, h2, h3⟩ := abfrage_request rt c (Operation.validateVAT a b) _
      (plan_validateVAT_ok a b) req h
    exact ⟨h1, h2, by rw [h3]; rfl⟩
  have m2 : ∀ (a b n ci st pc : String),
      ∀ req ∈ (ValidateVATQualified rt c a b n ci st pc).sent,
      req.Method = "POST" ∧ req.URL = c.baseURL ++ "/v1/abfrage" ∧
        req.Body.isSome = true := by
    intro a b n ci st pc req h
    obtain ⟨h1, h2, h3⟩ := abfrage_request rt c (Operation.validateVATQualified a b n ci st pc)
      _ (plan_validateVATQualified_ok a b n ci st pc) req h
    exact ⟨h1, h2, by rw [h3]; rfl⟩
  have m3 : ∀ (r : Option ValidationRequest), ∀ req ∈ (ValidateVATWithRequest rt c r).sent,
      req.Method = "POST" ∧ req.URL = c.baseURL ++ "/v1/abfrage" ∧
        req.Body.isSome = true := by
    intro r req h
    obtain ⟨method, path, body, hp, hb⟩ :=
      run_sent_mem rt c (Operation.validateVATWithRequest r) req h
    obtain ⟨h1, h2, h3, h4⟩ := plan_validateVATWithRequest_ok r method path body hp
    subst h1 h2 h3
    obtain ⟨hm, hu, hbd⟩ := buildRequest_ok_fields rt c _ _ _ req hb
    refine ⟨by simpa using hm, hu, ?_⟩
    rw [hbd]
    cases body with
    | none => simp at h4
    | some x => rfl
  have m4 : ∀ req ∈ (GetStatusMessages rt c).sent,
      req.Method = "GET" ∧ req.URL = c.baseURL ++ "/v1/info/statusmeldungen" ∧
        req.Body = none := by
    intro req h
    obtain ⟨method, path, body, hp, hb⟩ := run_sent_mem rt c Operation.getStatusMessages req h
    simp only [Operation.plan, Except.ok.injEq, Prod.mk.injEq] at hp
    obtain ⟨h1, h2, h3⟩ := hp
    subst h1 h2 h3
    obtain ⟨hm, hu, hbd⟩ := buildRequest_ok_fields rt c _ _ _ req hb
    exact ⟨by simpa using hm, hu, hbd⟩
  have m5 : ∀ req ∈ (GetEUMemberStates rt c).sent,
      req.Method = "GET" ∧ req.URL = c.baseURL ++ "/v1/info/eu_mitgliedstaaten" ∧
        req.Body = none := by
    intro req h
    obtain ⟨method, path, body, hp, hb⟩ := run_sent_mem rt c Operation.getEUMemberStates req h
    simp only [Operation.plan, Except.ok.injEq, Prod.mk.injEq] at hp
    obtain ⟨h1, h2, h3⟩ := hp
    subst h1 h2 h3
    obtain ⟨hm, hu, hbd⟩ := buildRequest_ok_fields rt c _ _ _ req hb
    exact ⟨by simpa using hm, hu, hbd⟩
  refine ⟨m1, m2, m3, m4, m5, by decide, by decide, by decide, ?_, ?_, ?_, ?_, ?_⟩
  · intro a b h1 h2 h3 hurl
    have hv : ValidateVAT rt c a b = postAbfrage rt c ⟨a, b, "", "", "", ""⟩ := by
      simp [ValidateVAT, h1, h2, h3]
    obtain ⟨req, hs⟩ : ∃ req, (ValidateVAT rt c a b).sent = [req] := by
      rw [hv]
      exact ⟨_, postAbfrage_build_ok rt c _ _ (buildRequest_abfrage rt c _ hurl)⟩
    exact ⟨_, hs, m1 a b _ (by rw [hs]; exact List.mem_singleton_self _)⟩
  · intro a b n ci st pc h1 h2 h3 h4 hurl
    have hv : ValidateVATQualified rt c a b n ci st pc
        = postAbfrage rt c ⟨a, b, n, st, pc, ci⟩ := by
      simp [ValidateVATQualified, h1, h2, h3, h4]
    obtain ⟨req, hs⟩ : ∃ req, (ValidateVATQualified rt c a b n ci st pc).sent = [req] := by
      rw [hv]
      exact ⟨_, postAbfrage_build_ok rt c _ _ (buildRequest_abfrage rt c _ hurl)⟩
    exact ⟨_, hs, m2 a b n ci st pc _ (by rw [hs]; exact List.mem_singleton_self _)⟩
  · intro x h1 h2 hurl
    have hv : ValidateVATWithRequest rt c (some x) = postAbfrage rt c x := by
      simp [ValidateVATWithRequest, h1, h2]
    obtain ⟨req, hs⟩ : ∃ req, (ValidateVATWithRequest rt c (some x)).sent = [req] := by
      rw [hv]
      exact ⟨_, postAbfrage_build_ok rt c _ _ (buildRequest_abfrage rt c _ hurl)⟩
    exact ⟨_, hs, m3 (some x) _ (by rw [hs]; exact List.mem_singleton_self _)⟩
  · intro hurl
    obtain ⟨req, hs⟩ : ∃ req, (GetStatusMessages rt c).sent = [req] :=
      ⟨_, run_sent_build_ok rt c Operation.getStatusMessages _ _ _ _ rfl
        (buildRequest_info rt c _ hurl)⟩
    exact ⟨_, hs, m4 _ (by rw [hs]; exact List.mem_singleton_self _)⟩
  · intro hurl
    obtain ⟨req, hs⟩ : ∃ req, (GetEUMemberStates rt c).sent = [req] :=
      ⟨_, run_sent_build_ok rt c Operation.getEUMemberStates _ _ _ _ rfl
        (buildRequest_info rt c _ hurl)⟩
    exact ⟨_, hs, m5 _ (by rw [hs]; exact List.mem_singleton_self _)⟩

/-- Witness of C13: under the default base URL a validation and the two listings each hand
one request to the HTTP client, with the method, URL and body of the claim. -/
theorem request_method_and_url_witness :
    (∃ req, (ValidateVAT sampleRuntime (serving 200 none) "DE123456789" "ATU12345678").sent
        = [req] ∧ req.Method = "POST" ∧
      req.URL = (serving 200 none).baseURL ++ "/v1/abfrage" ∧ req.Body.isSome = true) ∧
    (∃ req, (GetStatusMessages sampleRuntime (serving 200 none)).sent = [req] ∧
      req.Method = "GET" ∧
      req.URL = (serving 200 none).baseURL ++ "/v1/info/statusmeldungen" ∧ req.Body = none) ∧
    (∃ req, (GetEUMemberStates sampleRuntime (serving 200 none)).sent = [req] ∧
      req.Method = "GET" ∧
      req.URL = (serving 200 none).baseURL ++ "/v1/info/eu_mitgliedstaaten" ∧
      req.Body = none) ∧
    (serving 200 none).baseURL ++ "/v1/abfrage"
      = "https://api.evatr.vies.bzst.de/app/v1/abfrage" :=
  ⟨(request_method_and_url sampleRuntime (serving 200 none)).2.2.2.2.2.2.2.2.1
      "DE123456789" "ATU12345678" (by decide) (by decide) (by decide) (by decide),
   (request_method_and_url sampleRuntime (serving 200 none)).2.2.2.2.2.2.2.2.2.2.2.1
      (by decide),
   (request_method_and_url sampleRuntime (serving 200 none)).2.2.2.2.2.2.2.2.2.2.2.2
      (by decide),
   by decide⟩

/-! ## The request on the wire (C14, C17) -/

theorem decode_firmenname (t : ValidationRequest) (e : Option GoError) (s : String) :
    decodeMember validationRequestFields (t, e) ("firmenname", .str s)
      = ({ t with CompanyName := s }, e) :=
  rfl

theorem decode_strasse (t : ValidationRequest) (e : Option GoError) (s : String) :
    decodeMember validationRequestFields (t, e) ("strasse", .str s)
      = ({ t with Street := s }, e) :=
  rfl

theorem decode_plz (t : ValidationRequest) (e : Option GoError) (s : String) :
    decodeMember validationRequestFields (t, e) ("plz", .str s)
      = ({ t with PostalCode := s }, e) :=
  rfl

theorem decode_ort (t : ValidationRequest) (e : Option GoError) (s : String) :
    decodeMember validationRequestFields (t, e) ("ort", .str s) = ({ t with City := s }, e) :=
  rfl

/-- Decoding the encoding of a `ValidationRequest` into a fresh target gives it back. -/
theorem unmarshal_encodeValidationRequest (r : ValidationRequest) :
    jsonDecode unmarshalValidationRequest (some (encodeValidationRequest r))
      zeroValidationRequest = (r, none) := by
  have h1 : ∀ (t : ValidationRequest) (e : Option GoError) (s : String),
      decodeMember validationRequestFields (t, e) ("anfragendeUstid", .str s)
        = ({ t with RequestingVATID := s }, e) := fun _ _ _ => rfl
  have h2 : ∀ (t : ValidationRequest) (e : Option GoError) (s : String),
      decodeMember validationRequestFields (t, e) ("angefragteUstid", .str s)
        = ({ t with RequestedVATID := s }, e) := fun _ _ _ => rfl
  simp only [jsonDecode, unmarshalValidationRequest, unmarshalStruct, encodeValidationRequest,
    List.foldl_append, List.foldl_cons, List.foldl_nil]
  rw [h1, h2, foldl_omitEmpty _ "firmenname" _ decode_firmenname _ _ _ rfl,
    foldl_omitEmpty _ "strasse" _ decode_strasse _ _ _ rfl,
    foldl_omitEmpty _ "plz" _ decode_plz _ _ _ rfl,
    foldl_omitEmpty _ "ort" _ decode_ort _ _ _ rfl]

/-- A request whose fields are texts: decoding its JSON encoding through the wire shape gives
the same request back. The encoding names the two identifiers `anfragendeUstid` and
`angefragteUstid` and always carries them; each of `firmenname`, `strasse`, `plz` and `ort` is
carried exactly when its field is not empty. -/
theorem validationRequest_wire_roundtrip (r : ValidationRequest) :
    jsonDecode unmarshalValidationRequest (some (encodeValidationRequest r))
      zeroValidationRequest = (r, none) ∧
    encodeValidationRequest r =
      .obj ([("anfragendeUstid", .str r.RequestingVATID),
             ("angefragteUstid", .str r.RequestedVATID)] ++
        (if r.CompanyName = "" then [] else [("firmenname", .str r.CompanyName)]) ++
        (if r.Street = "" then [] else [("strasse", .str r.Street)]) ++
        (if r.PostalCode = "" then [] else [("plz", .str r.PostalCode)]) ++
        (if r.City = "" then [] else [("ort", .str r.City)])) ∧
    encodeValidationRequest ⟨r.RequestingVATID, r.RequestedVATID, "", "", "", ""⟩ =
      .obj [("anfragendeUstid", .str r.RequestingVATID),
            ("angefragteUstid", .str r.RequestedVATID)] :=
  ⟨unmarshal_encodeValidationRequest r, rfl, by simp [encodeValidationRequest, omitEmpty]⟩

/-- Claim C14. Every request that `ValidateVAT` hands to the HTTP client carries the encoding
of a `ValidationRequest` whose two identifiers are the two arguments and whose four company
fields are empty; every request of `ValidateVATQualified` carries the encoding of the request
in which each of the six fields is the argument of the same name (city and street are not
swapped). Decoding the body gives that request back. When the input checks pass and the
request can be created, such a request is handed to the HTTP client. -/
theorem validation_request_fields (rt : GoRuntime) (c : Client) :
    (∀ (requestingVATID requestedVATID : String),
      ∀ req ∈ (ValidateVAT rt c requestingVATID requestedVATID).sent,
        req.Body = some (encodeValidationRequest
          { RequestingVATID := requestingVATID, RequestedVATID := requestedVATID,
            CompanyName := "", Street := "", PostalCode := "", City := "" }) ∧
        jsonDecode unmarshalValidationRequest req.Body zeroValidationRequest =
          ({ RequestingVATID := requestingVATID, RequestedVATID := requestedVATID,
             CompanyName := "", Street := "", PostalCode := "", City := "" }, none)) ∧
    (∀ (requestingVATID requestedVATID companyName city street postalCode : String),
      ∀ req ∈ (ValidateVATQualified rt c requestingVATID requestedVATID companyName city
          street postalCode).sent,
        req.Body = some (encodeValidationRequest
          { RequestingVATID := requestingVATID, RequestedVATID := requestedVATID,
            CompanyName := companyName, City := city, Street := street,
            PostalCode := postalCode }) ∧
        jsonDecode unmarshalValidationRequest req.Body zeroValidationRequest =
          ({ RequestingVATID := requestingVATID, RequestedVATID := requestedVATID,
             CompanyName := companyName, City := city, Street := street,
             PostalCode := postalCode }, none)) ∧
    (∀ (requestingVATID requestedVATID : String), requestingVATID ≠ "" →
      stringsHasPrefix requestingVATID "DE" = true → requestedVATID ≠ "" →
      urlParses rt (c.baseURL ++ "/v1/abfrage") = true →
      ∃ req, (ValidateVAT rt c requestingVATID requestedVATID).sent = [req]) ∧
    (∀ (requestingVATID requestedVATID companyName city street postalCode : String),
      requestingVATID ≠ "" → requestedVATID ≠ "" → companyName ≠ "" → city ≠ "" →
      urlParses rt (c.baseURL ++ "/v1/abfrage") = true →
      ∃ req, (ValidateVATQualified rt c requestingVATID requestedVATID companyName city
        street postalCode).sent = [req]) := by
  refine ⟨?_, ?_, ?_, ?_⟩
  · intro a b req h
    obtain ⟨_, _, h3⟩ := abfrage_request rt c (Operation.validateVAT a b) _
      (plan_validateVAT_ok a b) req h
    refine ⟨h3, ?_⟩
    rw [h3]
    exact unmarshal_encodeValidationRequest _
  · intro a b n ci st pc req h
    obtain ⟨_, _, h3⟩ := abfrage_request rt c (Operation.validateVATQualified a b n ci st pc)
      _ (plan_validateVATQualified_ok a b n ci st pc) req h
    refine ⟨h3, ?_⟩
    rw [h3]
    exact unmarshal_encodeValidationRequest _
  · intro a b h1 h2 h3 hurl
    have hv : ValidateVAT rt c a b = postAbfrage rt c ⟨a, b, "", "", "", ""⟩ := by
      simp [ValidateVAT, h1, h2, h3]
    rw [hv]
    exact ⟨_, postAbfrage_build_ok rt c _ _ (buildRequest_abfrage rt c _ hurl)⟩
  · intro a b n ci st pc h1 h2 h3 h4 hurl
    have hv : ValidateVATQualified rt c a b n ci st pc
        = postAbfrage rt c ⟨a, b, n, st, pc, ci⟩ := by
      simp [ValidateVATQualified, h1, h2, h3, h4]
    rw [hv]
    exact ⟨_, postAbfrage_build_ok rt c _ _ (buildRequest_abfrage rt c _ hurl)⟩

/-- Witness of C14: the qualified call of the tests; the request carries the city under `ort`
and the street under `strasse`. -/
theorem validation_request_fields_witness :
    (sampleAbfrage ⟨"DE123456789", "ATU12345678", "Musterhaus GmbH & Co KG",
        "Musterstrasse 22", "12345", "Musterort"⟩).Body
      = some (.obj [("anfragendeUstid", .str "DE123456789"),
          ("angefragteUstid", .str "ATU12345678"),
          ("firmenname", .str "Musterhaus GmbH & Co KG"),
          ("strasse", .str "Musterstrasse 22"), ("plz", .str "12345"),
          ("ort", .str "Musterort")]) ∧
    (∃ req, (ValidateVAT sampleRuntime (serving 200 none) "DE123456789" "ATU12345678").sent
      = [req]) :=
  ⟨((validation_request_fields sampleRuntime (serving 200 none)).2.1
      "DE123456789" "ATU12345678" "Musterhaus GmbH & Co KG" "Musterort" "Musterstrasse 22"
      "12345"
      (sampleAbfrage ⟨"DE123456789", "ATU12345678", "Musterhaus GmbH & Co KG",
        "Musterstrasse 22", "12345", "Musterort"⟩)
      (by
        rw [show (ValidateVATQualified sampleRuntime (serving 200 none) "DE123456789"
            "ATU12345678" "Musterhaus GmbH & Co KG" "Musterort" "Musterstrasse 22"
            "12345").sent
          = [sampleAbfrage ⟨"DE123456789", "ATU12345678", "Musterhaus GmbH & Co KG",
              "Musterstrasse 22", "12345", "Musterort"⟩] from rfl]
        exact List.mem_singleton_self _)).1.trans rfl,
   (validation_request_fields sampleRuntime (serving 200 none)).2.2.1
      "DE123456789" "ATU12345678" (by decide) (by decide) (by decide) (by decide)⟩

/-! ## Client configuration (C15, C16) -/

theorem getElem?_append_default (store : Store) (x : HTTPClient) (p : Nat) (h : HTTPClient)
    (hp : store[p]? = some h) : (store ++ [x])[p]? = some h := by
  have hlt : p < store.length := by
    by_contra hge
    rw [List.getElem?_eq_none (Nat.le_of_not_lt hge)] at hp
    cases hp
  rw [List.getElem?_append_left hlt]
  exact hp

/-- Claim C15, as amended. For every custom HTTP client `h` (an object of the store at
address `p`) and every timeout `t`: with the options `WithHTTPClient(h)`, `WithTimeout(t)` in
this order the client executes requests through `h` with timeout `t`; with the options in the
other order the client executes requests through `h` with the timeout that `h` already had,
because the timeout option was applied to the default HTTP client that the later option
replaces. -/
theorem newClient_custom_client_and_timeout (net : RoundTripper) (store : Store) (p : Nat)
    (h : HTTPClient) (t : Int) (hp : store[p]? = some h) :
    builtClient net store [WithHTTPClient (some p), WithTimeout t]
      = some ⟨DefaultBaseURL, ⟨h.Transport, t⟩⟩ ∧
    builtClient net store [WithTimeout t, WithHTTPClient (some p)]
      = some ⟨DefaultBaseURL, ⟨h.Transport, h.Timeout⟩⟩ := by
  have hp1 := getElem?_append_default store ⟨net, DefaultTimeout⟩ p h hp
  have hlt : p < (store ++ [(⟨net, DefaultTimeout⟩ : HTTPClient)]).length := by
    by_contra hge
    rw [List.getElem?_eq_none (Nat.le_of_not_lt hge)] at hp1
    cases hp1
  constructor
  · simp only [builtClient, NewClient, List.foldl_cons, List.foldl_nil, Option.bind,
      WithHTTPClient, WithTimeout, hp1, ClientRef.deref]
    rw [List.getElem?_set_self hlt]
    rfl
  · have hself : (store ++ [(⟨net, DefaultTimeout⟩ : HTTPClient)])[store.length]?
        = some ⟨net, DefaultTimeout⟩ := by
      simp
    have hset : ((store ++ [(⟨net, DefaultTimeout⟩ : HTTPClient)]).set store.length
        ⟨net, t⟩)[p]? = some h := by
      have hne : store.length ≠ p := by
        intro he
        rw [← he] at hp
        simp at hp
      rw [List.getElem?_set_ne hne]
      exact hp1
    simp only [builtClient, NewClient, List.foldl_cons, List.foldl_nil, Option.bind,
      WithHTTPClient, WithTimeout, hself, ClientRef.deref, hset]
    rfl

/-- Witness of C15 (amended): a custom client with a timeout of 5 seconds and the option
`WithTimeout` of 60 seconds after it. -/
theorem newClient_custom_client_and_timeout_witness :
    (builtClient (fun _ => .error (.foreign "no network"))
        [⟨fun _ => .ok ⟨200, none⟩, 5000000000⟩]
        [WithHTTPClient (some 0), WithTimeout 60000000000]).map (fun c => c.httpClient.Timeout)
      = some 60000000000 :=
  congrArg (Option.map (fun c => c.httpClient.Timeout))
    (newClient_custom_client_and_timeout (fun _ => .error (.foreign "no network"))
      [⟨fun _ => .ok ⟨200, none⟩, 5000000000⟩] 0 ⟨fun _ => .ok ⟨200, none⟩, 5000000000⟩
      60000000000 rfl).1

/-- Counterexample to C15 as stated: with `WithTimeout` of 60 seconds supplied before a custom
client whose timeout is 5 seconds, the client built has the timeout of 5 seconds: the timeout
option is discarded. -/
theorem newClient_timeout_discarded :
    (builtClient (fun _ => .error (.foreign "no network"))
        [⟨fun _ => .ok ⟨200, none⟩, 5000000000⟩]
        [WithTimeout 60000000000, WithHTTPClient (some 0)]).map (fun c => c.httpClient.Timeout)
      = some 5000000000 ∧
    (builtClient (fun _ => .error (.foreign "no network"))
        [⟨fun _ => .ok ⟨200, none⟩, 5000000000⟩]
        [WithTimeout 60000000000, WithHTTPClient (some 0)]).map (fun c => c.httpClient.Timeout)
      ≠ some 60000000000 := by
  decide

theorem foldl_withBaseURL (us : List String) (u : String) :
    ∀ (c : ClientRef) (store : Store),
      (us.map WithBaseURL ++ [WithBaseURL u]).foldl (fun st opt => st.bind opt)
        (some (c, store)) = some ({ c with baseURL := u }, store) := by
  induction us with
  | nil => intro c store; rfl
  | cons v rest ih =>
    intro c store
    simp only [List.map_cons, List.cons_append, List.foldl_cons, Option.bind, WithBaseURL]
    exact ih _ store

/-- Claim C16. `NewClient` is the left fold of the options over the default configuration.
Without options the base URL is "https://api.evatr.vies.bzst.de/app" and the timeout is 30
seconds; with `WithBaseURL(u)` the base URL is `u` and the timeout is still 30 seconds; of
several `WithBaseURL` options the last one determines the base URL. -/
theorem newClient_defaults_and_base_url (net : RoundTripper) (store : Store) :
    (∀ opts, NewClient net store opts =
      opts.foldl (fun st opt => st.bind opt)
        (some (⟨DefaultBaseURL, some store.length⟩, store ++ [⟨net, DefaultTimeout⟩]))) ∧
    (∀ opts opt, NewClient net store (opts ++ [opt]) = (NewClient net store opts).bind opt) ∧
    builtClient net store [] = some ⟨DefaultBaseURL, ⟨net, DefaultTimeout⟩⟩ ∧
    DefaultBaseURL = "https://api.evatr.vies.bzst.de/app" ∧
    DefaultTimeout = 30 * 1000000000 ∧
    (∀ u, builtClient net store [WithBaseURL u] = some ⟨u, ⟨net, DefaultTimeout⟩⟩) ∧
    (∀ (us : List String) (u : String),
      builtClient net store (us.map WithBaseURL ++ [WithBaseURL u])
        = some ⟨u, ⟨net, DefaultTimeout⟩⟩) := by
  have hlast : ∀ (us : List String) (u : String),
      builtClient net store (us.map WithBaseURL ++ [WithBaseURL u])
      = some ⟨u, ⟨net, DefaultTimeout⟩⟩ := by
    intro us u
    simp only [builtClient, NewClient]
    rw [foldl_withBaseURL us u]
    simp [ClientRef.deref]
  refine ⟨fun _ => rfl, ?_, ?_, rfl, rfl, fun u => hlast [] u, hlast⟩
  · intro opts opt
    simp only [NewClient, List.foldl_append, List.foldl_cons, List.foldl_nil]
  · simp [builtClient, NewClient, ClientRef.deref]

/-! ## The debug transport (C19) -/

theorem debug_roundTrip_readable (util : Httputil) (inner : RawRoundTripper)
    (req : HttpRequest) (resp : RawResponse) (h : inner req = .ok resp)
    (hf : resp.Body.fault = none) :
    (debugTransport.RoundTrip util inner req).result = .ok resp := by
  obtain ⟨code, data, fault⟩ := resp
  simp only at hf
  subst hf
  simp only [debugTransport.RoundTrip, h, ioReadAll, bytesNewBuffer]

/-- Claim C19, as amended. For every inner transport and every request: when the inner
transport fails, the debug transport returns the same error and no response; when it delivers
a response whose body can be read to its end, the debug transport returns a response with the
same status code and a body that delivers exactly the same bytes; when it delivers a response
whose body fails while being read, the debug transport returns that read error and no
response. A client whose transport is the debug transport around an inner transport whose
bodies can all be read to the end returns from every operation the same result as a client
using the inner transport directly. -/
theorem debugTransport_outcome (util : Httputil) (net inner : RawRoundTripper)
    (req : HttpRequest) :
    (∀ e, inner req = .error e →
      NewDebugTransport util net (some inner) req = .error e) ∧
    (∀ resp, inner req = .ok resp → resp.Body.fault = none →
      NewDebugTransport util net (some inner) req
        = .ok ⟨resp.StatusCode, bytesNewBuffer resp.Body.data⟩ ∧
      NewDebugTransport util net (some inner) req = .ok resp) ∧
    (∀ resp e, inner req = .ok resp → resp.Body.fault = some e →
      NewDebugTransport util net (some inner) req = .error e) ∧
    ((∀ r resp, inner r = .ok resp → resp.Body.fault = none) →
      ∀ (rt : GoRuntime) (firstValue : Stream → Body) (baseURL : String) (timeout : Int),
        (∀ a b, ValidateVAT rt
            ⟨baseURL, ⟨delivered firstValue (NewDebugTransport util net (some inner)), timeout⟩⟩
            a b
          = ValidateVAT rt ⟨baseURL, ⟨delivered firstValue inner, timeout⟩⟩ a b) ∧
        (∀ a b n ci st pc, ValidateVATQualified rt
            ⟨baseURL, ⟨delivered firstValue (NewDebugTransport util net (some inner)), timeout⟩⟩
            a b n ci st pc
          = ValidateVATQualified rt ⟨baseURL, ⟨delivered firstValue inner, timeout⟩⟩
            a b n ci st pc) ∧
        (∀ r, ValidateVATWithRequest rt
            ⟨baseURL, ⟨delivered firstValue (NewDebugTransport util net (some inner)), timeout⟩⟩
            r
          = ValidateVATWithRequest rt ⟨baseURL, ⟨delivered firstValue inner, timeout⟩⟩ r) ∧
        GetStatusMessages rt
            ⟨baseURL, ⟨delivered firstValue (NewDebugTransport util net (some inner)), timeout⟩⟩
          = GetStatusMessages rt ⟨baseURL, ⟨delivered firstValue inner, timeout⟩⟩ ∧
        GetEUMemberStates rt
            ⟨baseURL, ⟨delivered firstValue (NewDebugTransport util net (some inner)), timeout⟩⟩
          = GetEUMemberStates rt ⟨baseURL, ⟨delivered firstValue inner, timeout⟩⟩) := by
  refine ⟨?_, ?_, ?_, ?_⟩
  · intro e h
    simp only [NewDebugTransport, Option.getD, debugTransport.RoundTrip, h]
  · intro resp h hf
    have hr := debug_roundTrip_readable util inner req resp h hf
    refine ⟨?_, hr⟩
    simp only [NewDebugTransport, Option.getD, hr]
    obtain ⟨code, data, fault⟩ := resp
    simp only at hf
    subst hf
    rfl
  · intro resp e h hf
    simp only [NewDebugTransport, Option.getD, debugTransport.RoundTrip, h, ioReadAll, hf]
  · intro hall rt firstValue baseURL timeout
    have heq : NewDebugTransport util net (some inner) = inner := by
      funext r
      cases hi : inner r with
      | error e => simp only [NewDebugTransport, Option.getD, debugTransport.RoundTrip, hi]
      | ok resp =>
        exact debug_roundTrip_readable util inner r resp hi (hall r resp hi)
    rw [heq]
    exact ⟨fun _ _ => rfl, fun _ _ _ _ _ _ => rfl, fun _ => rfl, rfl, rfl⟩

/-- Witness of C19 (amended): the exchange of the test, a 200 response whose body is read to
its end, passes through the debug transport unchanged. -/
theorem debugTransport_outcome_witness :
    NewDebugTransport sampleHttputil (fun _ => .error (.foreign "no network"))
        (some (fun _ => .ok ⟨200, ⟨[123, 125], none⟩⟩)) (sampleInfo "/v1/info/statusmeldungen")
      = .ok ⟨200, ⟨[123, 125], none⟩⟩ :=
  ((debugTransport_outcome sampleHttputil (fun _ => .error (.foreign "no network"))
      (fun _ => .ok ⟨200, ⟨[123, 125], none⟩⟩) (sampleInfo "/v1/info/statusmeldungen")).2.1
      ⟨200, ⟨[123, 125], none⟩⟩ rfl rfl).2

/-- Counterexample to C19 as stated: the inner transport delivers a 404 response whose body
breaks off with a read error. Used directly, the client returns the upstream Error for 404;
through the debug transport the round trip returns the read error and no response, and the
client returns a failure to execute the request. -/
theorem debugTransport_unreadable_body :
    NewDebugTransport sampleHttputil (fun _ => .error (.foreign "no network"))
        (some (fun _ => .ok ⟨404, ⟨[123], some (.foreign "unexpected EOF")⟩⟩))
        (sampleAbfrage ⟨"DE123456789", "ATU12345678", "", "", "", ""⟩)
      = .error (.foreign "unexpected EOF") ∧
    (ValidateVAT sampleRuntime
        ⟨DefaultBaseURL, ⟨delivered (fun _ => none)
          (fun _ => .ok ⟨404, ⟨[123], some (.foreign "unexpected EOF")⟩⟩), DefaultTimeout⟩⟩
        "DE123456789" "ATU12345678").err
      = some (.evatr ⟨404, "", "Not found: VAT ID not found or requesting VAT ID invalid"⟩) ∧
    (ValidateVAT sampleRuntime
        ⟨DefaultBaseURL, ⟨delivered (fun _ => none)
          (NewDebugTransport sampleHttputil (fun _ => .error (.foreign "no network"))
            (some (fun _ => .ok ⟨404, ⟨[123], some (.foreign "unexpected EOF")⟩⟩))),
          DefaultTimeout⟩⟩
        "DE123456789" "ATU12345678").err
      = some (.wrapError "failed to execute request: " (.foreign "unexpected EOF")) :=
  ⟨rfl, rfl, rfl⟩

/-! ## The error test (C21) -/

/-- Claim C21. `IsEvatrErr` is false for the nil error, true for every error whose dynamic
type is `*Error` (so for every value built by the five constructors of `errors.go` and by the
error classifier `handleErrorResponse`), and false for an error of any other dynamic type: a
plain `fmt.Errorf` error, an error of a library, and an error that wraps another one, an
`*Error` included. -/
theorem isEvatrErr_by_dynamic_type :
    IsEvatrErr none = false ∧
    (∀ err : Option GoError, IsEvatrErr err = true ↔ ∃ e : Error, err = some (.evatr e)) ∧
    (∀ status message : String,
      IsEvatrErr (some (.evatr (NewBadRequestError status message))) = true ∧
      IsEvatrErr (some (.evatr (NewForbiddenError status message))) = true ∧
      IsEvatrErr (some (.evatr (NewNotFoundError status message))) = true ∧
      IsEvatrErr (some (.evatr (NewInternalServerError status message))) = true ∧
      IsEvatrErr (some (.evatr (NewServiceUnavailableError status message))) = true) ∧
    (∀ (statusCode : Int) (body : Body),
      IsEvatrErr (some (.evatr (handleErrorResponse statusCode body))) = true) ∧
    (∀ msg : String, IsEvatrErr (some (.errorString msg)) = false) ∧
    (∀ msg : String, IsEvatrErr (some (.foreign msg)) = false) ∧
    (∀ (msg : String) (inner : GoError), IsEvatrErr (some (.wrapError msg inner)) = false) ∧
    (∀ (msg : String) (e : Error),
      IsEvatrErr (some (.wrapError msg (.evatr e))) = false) ∧
    ((NewBadRequestError "s" "m").StatusCode = 400 ∧
      (NewForbiddenError "s" "m").StatusCode = 403 ∧
      (NewNotFoundError "s" "m").StatusCode = 404 ∧
      (NewInternalServerError "s" "m").StatusCode = 500 ∧
      (NewServiceUnavailableError "s" "m").StatusCode = 503) := by
  refine ⟨rfl, ?_, fun _ _ => ⟨rfl, rfl, rfl, rfl, rfl⟩, fun _ _ => rfl, fun _ => rfl,
    fun _ => rfl, fun _ _ => rfl, fun _ _ => rfl, ⟨rfl, rfl, rfl, rfl, rfl⟩⟩
  intro err
  constructor
  · intro h
    cases err with
    | none => simp [IsEvatrErr] at h
    | some g =>
      cases g with
      | evatr e => exact ⟨e, rfl⟩
      | errorString msg => simp [IsEvatrErr] at h
      | wrapError msg inner => simp [IsEvatrErr] at h
      | foreign msg => simp [IsEvatrErr] at h
  · rintro ⟨e, rfl⟩
    rfl

/-! ## The request on the wire, byte by byte (C17) -/

theorem char_toNat_valid (c : Char) :
    c.toNat < 0xD800 ∨ (0xDFFF < c.toNat ∧ c.toNat < 0x110000) :=
  c.valid

/-- Decoding the UTF-8 encoding of a rune gives the rune and the length of the encoding. -/
theorem decodeRune_encodeRune (c : Char) (rest : GoString) :
    decodeRune (encodeRune c ++ rest) = (c, (encodeRune c).length) := by
  have hv := char_toNat_valid c
  have hc := Char.ofNat_toNat c
  unfold encodeRune
  generalize c.toNat = n at hv hc ⊢
  by_cases h1 : n < 0x80
  · simp only [h1, if_true, List.cons_append, List.nil_append, decodeRune, hc, List.length_cons,
      List.length_nil]
  · by_cases h2 : n < 0x800
    · have e1 : ¬ (0xC0 + n / 64 < 0x80) := by omega
      have e2 : 0xC2 ≤ 0xC0 + n / 64 ∧ 0xC0 + n / 64 ≤ 0xDF := by omega
      have e3 : 0x80 ≤ 0x80 + n % 64 ∧ 0x80 + n % 64 ≤ 0xBF := by omega
      have e4 : (0xC0 + n / 64 - 0xC0) * 64 + (0x80 + n % 64 - 0x80) = n := by omega
      simp only [h1, h2, if_true, if_false, List.cons_append, List.nil_append, decodeRune, e1,
        e2, e3, e4, and_self, hc, List.length_cons, List.length_nil]
    · by_cases h3 : n < 0x10000
      · have e1 : ¬ (0xE0 + n / 4096 < 0x80) := by omega
        have e2 : ¬ (0xC2 ≤ 0xE0 + n / 4096 ∧ 0xE0 + n / 4096 ≤ 0xDF) := by omega
        have e3 : 0xE0 ≤ 0xE0 + n / 4096 ∧ 0xE0 + n / 4096 ≤ 0xEF := by omega
        have e4 : (if 0xE0 + n / 4096 = 0xE0 then 0xA0 else 0x80) ≤ 0x80 + n / 64 % 64 ∧
            0x80 + n / 64 % 64 ≤ (if 0xE0 + n / 4096 = 0xED then 0x9F else 0xBF) ∧
            0x80 ≤ 0x80 + n % 64 ∧ 0x80 + n % 64 ≤ 0xBF := by
          split_ifs <;> omega
        have e5 : (0xE0 + n / 4096 - 0xE0) * 4096 + (0x80 + n / 64 % 64 - 0x80) * 64
            + (0x80 + n % 64 - 0x80) = n := by omega
        simp only [h1, h2, h3, if_true, if_false, List.cons_append, List.nil_append,
          decodeRune, e1, e2, e3, e4, e5, and_self, hc, List.length_cons, List.length_nil]
      · have e1 : ¬ (0xF0 + n / 262144 < 0x80) := by omega
        have e2 : ¬ (0xC2 ≤ 0xF0 + n / 262144 ∧ 0xF0 + n / 262144 ≤ 0xDF) := by omega
        have e3 : ¬ (0xE0 ≤ 0xF0 + n / 262144 ∧ 0xF0 + n / 262144 ≤ 0xEF) := by omega
        have e4 : 0xF0 ≤ 0xF0 + n / 262144 ∧ 0xF0 + n / 262144 ≤ 0xF4 := by omega
        have e5 : (if 0xF0 + n / 262144 = 0xF0 then 0x90 else 0x80) ≤ 0x80 + n / 4096 % 64 ∧
            0x80 + n / 4096 % 64 ≤ (if 0xF0 + n / 262144 = 0xF4 then 0x8F else 0xBF) ∧
            0x80 ≤ 0x80 + n / 64 % 64 ∧ 0x80 + n / 64 % 64 ≤ 0xBF ∧
            0x80 ≤ 0x80 + n % 64 ∧ 0x80 + n % 64 ≤ 0xBF := by
          split_ifs <;> omega
        have e6 : (0xF0 + n / 262144 - 0xF0) * 262144 + (0x80 + n / 4096 % 64 - 0x80) * 4096
            + (0x80 + n / 64 % 64 - 0x80) * 64 + (0x80 + n % 64 - 0x80) = n := by omega
        simp only [h1, h2, h3, if_true, if_false, List.cons_append, List.nil_append,
          decodeRune, e1, e2, e3, e4, e5, e6, and_self, hc, List.length_cons, List.length_nil]

theorem encodeRune_ne_nil (c : Char) : encodeRune c ≠ [] := by
  unfold encodeRune
  split_ifs <;> simp

theorem decodeRunes_succ (fuel : Nat) (l : GoString) (h : l ≠ []) :
    decodeRunes (fuel + 1) l =
      (decodeRune l).1 :: decodeRunes fuel (l.drop (decodeRune l).2) := by
  cases l with
  | nil => exact absurd rfl h
  | cons b rest => rfl

theorem decodeRunes_flatMap (cs : List Char) :
    ∀ fuel, cs.length ≤ fuel → decodeRunes fuel (cs.flatMap encodeRune) = cs := by
  induction cs with
  | nil =>
    intro fuel _
    cases fuel <;> rfl
  | cons c rest ih =>
    intro fuel hf
    cases fuel with
    | zero => simp at hf
    | succ f =>
      have hne : encodeRune c ++ rest.flatMap encodeRune ≠ [] := by
        simp [encodeRune_ne_nil c]
      simp only [List.flatMap_cons]
      rw [decodeRunes_succ f _ hne, decodeRune_encodeRune]
      simp only [List.drop_left]
      rw [ih f (by simpa using hf)]

theorem length_le_flatMap_encodeRune (cs : List Char) :
    cs.length ≤ (cs.flatMap encodeRune).length := by
  induction cs with
  | nil => simp
  | cons c rest ih =>
    have : 1 ≤ (encodeRune c).length := by
      cases h : encodeRune c with
      | nil => exact absurd h (encodeRune_ne_nil c)
      | cons _ _ => simp
    simp only [List.flatMap_cons, List.length_append, List.length_cons]
    omega

/-- The JSON text of the UTF-8 bytes of a text is that text. -/
theorem jsonText_utf8Bytes (t : String) : jsonText (utf8Bytes t) = t := by
  unfold jsonText utf8Bytes
  rw [decodeRunes_flatMap t.toList _ (length_le_flatMap_encodeRune t.toList)]
  cases t
  rfl

theorem jsonText_eq_empty (s : GoString) : jsonText s = "" ↔ s = [] := by
  constructor
  · intro h
    cases s with
    | nil => rfl
    | cons b rest =>
      exfalso
      unfold jsonText at h
      rw [List.length_cons, decodeRunes_succ _ _ (List.cons_ne_nil _ _)] at h
      have := congrArg String.data h
      simp at this
  · intro h
    subst h
    rfl

/-- A Go string comes back from the wire unchanged exactly when it is valid UTF-8. -/
theorem utf8Bytes_jsonText_iff (s : GoString) : utf8Bytes (jsonText s) = s ↔ ValidUTF8 s := by
  constructor
  · intro h
    exact ⟨jsonText s, h.symm⟩
  · rintro ⟨t, rfl⟩
    rw [jsonText_utf8Bytes]

theorem omitEmptyBytes_eq (name : String) (s : GoString) :
    omitEmptyBytes name s = omitEmpty name (jsonText s) := by
  unfold omitEmptyBytes omitEmpty
  by_cases h : s = []
  · subst h
    rfl
  · have h2 : ¬ jsonText s = "" := fun he => h ((jsonText_eq_empty s).mp he)
    simp [h, h2]

/-- The encoding of a Go value is the encoding of the texts of its fields. -/
theorem encodeValidationRequestBytes_text (r : ValidationRequestBytes) :
    encodeValidationRequestBytes r = encodeValidationRequest r.text := by
  simp only [encodeValidationRequestBytes, encodeValidationRequest, omitEmptyBytes_eq,
    ValidationRequestBytes.text]

/-- Decoding the encoding of a Go value into a fresh target gives, in every field, the UTF-8
bytes of the JSON text of that field. -/
theorem unmarshal_encodeValidationRequestBytes (r : ValidationRequestBytes) :
    jsonDecode unmarshalValidationRequestBytes (some (encodeValidationRequestBytes r))
      zeroValidationRequestBytes =
      (⟨utf8Bytes (jsonText r.RequestingVATID), utf8Bytes (jsonText r.RequestedVATID),
        utf8Bytes (jsonText r.CompanyName), utf8Bytes (jsonText r.Street),
        utf8Bytes (jsonText r.PostalCode), utf8Bytes (jsonText r.City)⟩, none) := by
  have h1 : ∀ (t : ValidationRequestBytes) (e : Option GoError) (s : String),
      decodeMember validationRequestBytesFields (t, e) ("anfragendeUstid", .str s)
        = ({ t with RequestingVATID := utf8Bytes s }, e) := fun _ _ _ => rfl
  have h2 : ∀ (t : ValidationRequestBytes) (e : Option GoError) (s : String),
      decodeMember validationRequestBytesFields (t, e) ("angefragteUstid", .str s)
        = ({ t with RequestedVATID := utf8Bytes s }, e) := fun _ _ _ => rfl
  have h3 : ∀ (t : ValidationRequestBytes) (e : Option GoError) (s : String),
      decodeMember validationRequestBytesFields (t, e) ("firmenname", .str s)
        = ({ t with CompanyName := utf8Bytes s }, e) := fun _ _ _ => rfl
  have h4 : ∀ (t : ValidationRequestBytes) (e : Option GoError) (s : String),
      decodeMember validationRequestBytesFields (t, e) ("strasse", .str s)
        = ({ t with Street := utf8Bytes s }, e) := fun _ _ _ => rfl
  have h5 : ∀ (t : ValidationRequestBytes) (e : Option GoError) (s : String),
      decodeMember validationRequestBytesFields (t, e) ("plz", .str s)
        = ({ t with PostalCode := utf8Bytes s }, e) := fun _ _ _ => rfl
  have h6 : ∀ (t : ValidationRequestBytes) (e : Option GoError) (s : String),
      decodeMember validationRequestBytesFields (t, e) ("ort", .str s)
        = ({ t with City := utf8Bytes s }, e) := fun _ _ _ => rfl
  simp only [jsonDecode, unmarshalValidationRequestBytes, unmarshalStruct,
    encodeValidationRequestBytes, omitEmptyBytes_eq, List.foldl_append, List.foldl_cons,
    List.foldl_nil]
  rw [h1, h2, foldl_omitEmpty _ "firmenname" _ h3 _ _ _ rfl,
    foldl_omitEmpty _ "strasse" _ h4 _ _ _ rfl,
    foldl_omitEmpty _ "plz" _ h5 _ _ _ rfl,
    foldl_omitEmpty _ "ort" _ h6 _ _ _ rfl]

/-- Claim C17, as amended. For every `ValidationRequest`, decoding its JSON encoding through
the wire shape (names `anfragendeUstid`, `angefragteUstid`, `firmenname`, `strasse`, `plz`,
`ort`, the last four omitted when empty) gives a request in which every field that is valid
UTF-8 has exactly the same value, an empty field being empty again; a field that is not valid
UTF-8 comes back as the UTF-8 bytes of its JSON text, in which every invalid byte is replaced
by U+FFFD. When all six fields are valid UTF-8 the request comes back unchanged. -/
theorem validationRequest_bytes_roundtrip (r : ValidationRequestBytes) :
    jsonDecode unmarshalValidationRequestBytes (some (encodeValidationRequestBytes r))
      zeroValidationRequestBytes =
      (⟨utf8Bytes (jsonText r.RequestingVATID), utf8Bytes (jsonText r.RequestedVATID),
        utf8Bytes (jsonText r.CompanyName), utf8Bytes (jsonText r.Street),
        utf8Bytes (jsonText r.PostalCode), utf8Bytes (jsonText r.City)⟩, none) ∧
    (∀ s : GoString, ValidUTF8 s → utf8Bytes (jsonText s) = s) ∧
    utf8Bytes (jsonText []) = [] ∧
    (ValidUTF8 r.RequestingVATID → ValidUTF8 r.RequestedVATID → ValidUTF8 r.CompanyName →
      ValidUTF8 r.Street → ValidUTF8 r.PostalCode → ValidUTF8 r.City →
      jsonDecode unmarshalValidationRequestBytes (some (encodeValidationRequestBytes r))
        zeroValidationRequestBytes = (r, none)) ∧
    encodeValidationRequestBytes r =
      .obj ([("anfragendeUstid", .str (jsonText r.RequestingVATID)),
             ("angefragteUstid", .str (jsonText r.RequestedVATID))] ++
        (if r.CompanyName = [] then [] else [("firmenname", .str (jsonText r.CompanyName))]) ++
        (if r.Street = [] then [] else [("strasse", .str (jsonText r.Street))]) ++
        (if r.PostalCode = [] then [] else [("plz", .str (jsonText r.PostalCode))]) ++
        (if r.City = [] then [] else [("ort", .str (jsonText r.City))])) := by
  refine ⟨unmarshal_encodeValidationRequestBytes r,
    fun s hs => (utf8Bytes_jsonText_iff s).mpr hs, rfl, ?_, rfl⟩
  intro v1 v2 v3 v4 v5 v6
  rw [unmarshal_encodeValidationRequestBytes, (utf8Bytes_jsonText_iff _).mpr v1,
    (utf8Bytes_jsonText_iff _).mpr v2, (utf8Bytes_jsonText_iff _).mpr v3,
    (utf8Bytes_jsonText_iff _).mpr v4, (utf8Bytes_jsonText_iff _).mpr v5,
    (utf8Bytes_jsonText_iff _).mpr v6]

/-- Witness of C17 (amended): a request with the company name "Müller GmbH" and the city
"Köln" given byte by byte, and no street and postal code, comes back unchanged. -/
theorem validationRequest_bytes_roundtrip_witness :
    jsonDecode unmarshalValidationRequestBytes
        (some (encodeValidationRequestBytes
          ⟨[68, 69, 49, 50, 51], [65, 84, 85, 49, 50],
            [77, 195, 188, 108, 108, 101, 114, 32, 71, 109, 98, 72], [], [],
            [75, 195, 182, 108, 110]⟩))
        zeroValidationRequestBytes
      = (⟨[68, 69, 49, 50, 51], [65, 84, 85, 49, 50],
          [77, 195, 188, 108, 108, 101, 114, 32, 71, 109, 98, 72], [], [],
          [75, 195, 182, 108, 110]⟩, none) :=
  (validationRequest_bytes_roundtrip
    ⟨[68, 69, 49, 50, 51], [65, 84, 85, 49, 50],
      [77, 195, 188, 108, 108, 101, 114, 32, 71, 109, 98, 72], [], [],
      [75, 195, 182, 108, 110]⟩).2.2.2.1
    ⟨"DE123", by decide⟩ ⟨"ATU12", by decide⟩ ⟨"Müller GmbH", by decide⟩ ⟨"", by decide⟩
    ⟨"", by decide⟩ ⟨"Köln", by decide⟩

/-- Counterexample to C17 as stated: a request whose company name is the single byte 0xFF.
The field is not empty, and after encoding and decoding it holds the three bytes of U+FFFD
instead of its value; the other fields come back unchanged. -/
theorem validationRequest_invalid_byte_replaced :
    (jsonDecode unmarshalValidationRequestBytes
        (some (encodeValidationRequestBytes
          ⟨[68, 69, 49, 50, 51], [65, 84, 85, 49, 50], [255], [], [], [66, 111, 110, 110]⟩))
        zeroValidationRequestBytes).1
      = ⟨[68, 69, 49, 50, 51], [65, 84, 85, 49, 50], [239, 191, 189], [], [],
          [66, 111, 110, 110]⟩ ∧
    (jsonDecode unmarshalValidationRequestBytes
        (some (encodeValidationRequestBytes
          ⟨[68, 69, 49, 50, 51], [65, 84, 85, 49, 50], [255], [], [], [66, 111, 110, 110]⟩))
        zeroValidationRequestBytes).1.CompanyName ≠ [255] ∧
    jsonText [255] = String.mk [runeError] := by
  decide

end Evatr
